import Mathlib

/-!
# LabXtract — shallow embedding and verification of the spec's claims

This file embeds, in Lean 4, the parts of the LabXtract repository
(`src/labxtract/`) that the frozen claims C1–C10 are about:

* `labxtract/core/models.py` — `LabTest.__post_init__`, status/category
  derivation, `LabReport` counters;
* `labxtract/parsers/excel_parser.py` — `ExcelLabParser`'s sheet parsing
  pipeline (`_find_header_row`, `_identify_columns`, `_parse_test_row`,
  `_parse_result_value`, `_parse_reference_range`, …);
* `labxtract/parsers/table_finder.py` — `TableFinder.find_tables` and its
  helpers;
* `labxtract/core/normalizer.py` — `DataNormalizer.normalize_test`.

Modelling conventions:

* Python strings are `List Char` (`PyStr`); `None`-able strings are
  `Option PyStr`; a pandas `NaN` cell is `none`.
* Python floats are modelled as exact rationals `ℚ`.  Every numeric value in
  the claims arises by parsing a short decimal literal, and every comparison
  or arithmetic operation performed on them ( `<`, `>`, mean of two values )
  gives the same answer for IEEE doubles parsed from those literals as for
  the exact rationals, so nothing in the claims depends on rounding.
* Python's `str.lower` / `\w` / whitespace are modelled for the character
  set actually appearing in the repository's tables: ASCII plus the Cyrillic
  block and the superscript digits used in unit names.
* Dict iteration order in CPython is insertion order; dict literals are
  therefore embedded as association lists in source order.
-/

set_option maxRecDepth 8000

/-! ## Python string model -/

/-- Python strings, modelled as lists of characters. -/
abbrev PyStr := List Char

/-- Python's default `str.strip` / `\s` whitespace (ASCII part; the
repository's data contains no exotic Unicode whitespace). -/
def isPyWs (c : Char) : Bool :=
  c = ' ' || c = '\t' || c = '\n' || c = '\r' || c = '\x0b' || c = '\x0c'

/-- First-match association lookup over a character table. -/
def tblGet : List (Char × Char) → Char → Option Char
  | [], _ => none
  | (a, b) :: rest, c => if c = a then some b else tblGet rest c

/-- Uppercase → lowercase pairs for the characters the repository uses:
ASCII `A`–`Z`, Cyrillic `А`–`Я` and `Ё` (Python's `str.lower` handles these
identically). -/
def lowerPairs : List (Char × Char) :=
  [('A', 'a'), ('B', 'b'), ('C', 'c'), ('D', 'd'), ('E', 'e'), ('F', 'f'),
   ('G', 'g'), ('H', 'h'), ('I', 'i'), ('J', 'j'), ('K', 'k'), ('L', 'l'),
   ('M', 'm'), ('N', 'n'), ('O', 'o'), ('P', 'p'), ('Q', 'q'), ('R', 'r'),
   ('S', 's'), ('T', 't'), ('U', 'u'), ('V', 'v'), ('W', 'w'), ('X', 'x'),
   ('Y', 'y'), ('Z', 'z'),
   ('А', 'а'), ('Б', 'б'), ('В', 'в'), ('Г', 'г'), ('Д', 'д'), ('Е', 'е'),
   ('Ж', 'ж'), ('З', 'з'), ('И', 'и'), ('Й', 'й'), ('К', 'к'), ('Л', 'л'),
   ('М', 'м'), ('Н', 'н'), ('О', 'о'), ('П', 'п'), ('Р', 'р'), ('С', 'с'),
   ('Т', 'т'), ('У', 'у'), ('Ф', 'ф'), ('Х', 'х'), ('Ц', 'ц'), ('Ч', 'ч'),
   ('Ш', 'ш'), ('Щ', 'щ'), ('Ъ', 'ъ'), ('Ы', 'ы'), ('Ь', 'ь'), ('Э', 'э'),
   ('Ю', 'ю'), ('Я', 'я'), ('Ё', 'ё')]

/-- `str.lower` on one character. -/
def pyLower (c : Char) : Char := (tblGet lowerPairs c).getD c

/-- `str.upper` on one character (inverse table). -/
def pyUpper (c : Char) : Char :=
  (tblGet (lowerPairs.map (fun p => (p.2, p.1))) c).getD c

/-- `str.lower` on a whole string. -/
def lowerStr (s : PyStr) : PyStr := s.map pyLower

/-- Drop leading whitespace (`str.lstrip`). -/
def stripL (l : PyStr) : PyStr := l.dropWhile isPyWs

/-- Drop trailing whitespace (`str.rstrip`), structurally. -/
def stripR : PyStr → PyStr
  | [] => []
  | c :: cs =>
    let r := stripR cs
    if r.isEmpty && isPyWs c then [] else c :: r

/-- Python `str.strip()`. -/
def pyStrip (l : PyStr) : PyStr := stripR (stripL l)

/-- Exact prefix test on character lists. -/
def pfx : PyStr → PyStr → Bool
  | [], _ => true
  | _ :: _, [] => false
  | a :: as, b :: bs => a = b && pfx as bs

/-- Python's `needle in hay` substring test (scan every suffix). -/
def subS (n : PyStr) : PyStr → Bool
  | [] => n.isEmpty
  | c :: t => pfx n (c :: t) || subS n t

/-- First-match scan of an ordered string→string mapping, where a key
matches when it is a substring of the probe (`if key in probe`). -/
def scanMap : List (PyStr × PyStr) → PyStr → Option PyStr
  | [], _ => none
  | (k, v) :: rest, probe => if subS k probe then some v else scanMap rest probe

/-- `' '.join(parts)`. -/
def joinSp : List PyStr → PyStr
  | [] => []
  | [p] => p
  | p :: ps => p ++ ' ' :: joinSp ps

/-- Python `str.split()` (split on whitespace runs, dropping empties);
`cur` accumulates the current word reversed. -/
def pySplitGo (cur : PyStr) : PyStr → List PyStr
  | [] => if cur.isEmpty then [] else [cur.reverse]
  | c :: cs =>
    if isPyWs c then
      if cur.isEmpty then pySplitGo [] cs else cur.reverse :: pySplitGo [] cs
    else pySplitGo (c :: cur) cs

/-- Python `str.split()`. -/
def pySplit (l : PyStr) : List PyStr := pySplitGo [] l

/-- `str.endswith(suffix)`. -/
def endsW (suffix l : PyStr) : Bool := pfx suffix.reverse l.reverse

/-- Truthiness of an optional Python string (`None` and `""` are falsy). -/
def pyTruthyS : Option PyStr → Bool
  | none => false
  | some s => !s.isEmpty

/-! ## Digits and numbers -/

def isDigitC (c : Char) : Bool := '0' ≤ c && c ≤ '9'

/-- Split off the maximal leading digit run. -/
def digitSpan : PyStr → PyStr × PyStr
  | [] => ([], [])
  | c :: cs =>
    if isDigitC c then
      let (r, rest) := digitSpan cs
      (c :: r, rest)
    else ([], c :: cs)

def digitsVal (l : PyStr) : Nat := l.foldl (fun a c => a * 10 + (c.toNat - 48)) 0

/-- Negation on `ℚ` written through `mkRat` (Mathlib's `Rat.neg` is not
kernel-reducible; `ratNeg q = -q` is proved below). -/
def ratNeg (q : ℚ) : ℚ := mkRat (-q.num) q.den

/-- The arithmetic mean `(a + b) / 2` written through `mkRat`
(`ratMean a b = (a + b) / 2` is proved below). -/
def ratMean (a b : ℚ) : ℚ := mkRat (a.num * b.den + b.num * a.den) (2 * (a.den * b.den))

/-- `float(s)` for an unsigned matched numeral (`"12"`, `"3.9"`, `"3."`,
`".5"`): the exact value `ip + fp / 10^len(fp)`, built with a single
`mkRat` so that it kernel-reduces (see `numCore_frac_eq` below). -/
def numCore (m : PyStr) : ℚ :=
  let (ip, r) := digitSpan m
  match r with
  | '.' :: fp0 =>
    let (fp, _) := digitSpan fp0
    mkRat (digitsVal ip * 10 ^ fp.length + digitsVal fp) (10 ^ fp.length)
  | _ => mkRat (digitsVal ip) 1

/-- `float(s)` for a matched numeral with optional sign. -/
def strToRat : PyStr → ℚ
  | '-' :: rest => ratNeg (numCore rest)
  | '+' :: rest => numCore rest
  | m => numCore m

/-! ## CPython `re.findall` for the two numeral regexes

`excel_parser.py` extracts numbers with `re.findall(r'[-+]?\d*\.?\d+', s)`
(result values) and `re.findall(r'\d+\.?\d*', s)` (reference ranges).  The
functions below mirror the backtracking engine's behaviour exactly:
scan left to right, at each position take the leftmost match, resume after
the matched text. -/

/-- One match of `\d*\.?\d+` at the current position (the sign is handled by
the caller).  Greedy digits; the dot is only kept when a digit follows it
(otherwise `\.?` backtracks to empty and `\d+` re-uses the digit run). -/
def matchNumRes (l : PyStr) : Option (PyStr × PyStr) :=
  let (d1, r1) := digitSpan l
  if d1.isEmpty then
    match l with
    | '.' :: r2 =>
      let (d2, r3) := digitSpan r2
      if d2.isEmpty then none else some ('.' :: d2, r3)
    | _ => none
  else
    match r1 with
    | '.' :: r2 =>
      let (d2, r3) := digitSpan r2
      if d2.isEmpty then some (d1, r1) else some (d1 ++ '.' :: d2, r3)
    | _ => some (d1, r1)

/-- One match of `[-+]?\d*\.?\d+` at the current position. -/
def tryMatchRes : PyStr → Option (PyStr × PyStr)
  | [] => none
  | c :: cs =>
    if c = '-' || c = '+' then
      match matchNumRes cs with
      | some (m, rest) => some (c :: m, rest)
      | none => none
    else matchNumRes (c :: cs)

/-- Scan for all matches of `[-+]?\d*\.?\d+`; `fuel` bounds the recursion
(every step consumes at least one character, so `fuel = length` suffices). -/
def findAllRes : Nat → PyStr → List PyStr
  | 0, _ => []
  | _, [] => []
  | fuel + 1, c :: cs =>
    match tryMatchRes (c :: cs) with
    | some (m, rest) => m :: findAllRes fuel rest
    | none => findAllRes fuel cs

/-- `re.findall(r'[-+]?\d*\.?\d+', l)`. -/
def reFindRes (l : PyStr) : List PyStr := findAllRes l.length l

/-- One match of `\d+\.?\d*` at the current position.  Here a trailing dot
IS consumed (`\d*` may be empty), as in the reference-range regex. -/
def matchNumRef (l : PyStr) : Option (PyStr × PyStr) :=
  let (d1, r1) := digitSpan l
  if d1.isEmpty then none
  else
    match r1 with
    | '.' :: r2 =>
      let (d2, r3) := digitSpan r2
      some (d1 ++ '.' :: d2, r3)
    | _ => some (d1, r1)

/-- Scan for all matches of `\d+\.?\d*`. -/
def findAllRef : Nat → PyStr → List PyStr
  | 0, _ => []
  | _, [] => []
  | fuel + 1, c :: cs =>
    match matchNumRef (c :: cs) with
    | some (m, rest) => m :: findAllRef fuel rest
    | none => findAllRef fuel cs

/-- `re.findall(r'\d+\.?\d*', l)`. -/
def reFindRef (l : PyStr) : List PyStr := findAllRef l.length l

/-! ## `repr` of a Python float

Needed because the range branch of `_parse_result_value` builds the string
`f"{num1}-{num2}"` from two floats, and `__post_init__` stores
`str(self.value)`.  For a float whose value is a short decimal (the only
floats arising here), CPython's `repr` prints the shortest decimal form,
with ".0" appended to integral values; `pyFloatRepr` reproduces that for
exact rationals with a terminating decimal expansion. -/

/-- Smallest number of decimal places (≤ 17) exactly representing `q`
(the least `k` with `q.den ∣ 10^k`). -/
def decExp (q : ℚ) : Option Nat :=
  (List.range 18).find? (fun k => 10 ^ k % q.den = 0)

def pyFloatRepr (q : ℚ) : PyStr :=
  match decExp q with
  | some 0 => (toString q.num).data ++ ['.', '0']
  | some (k + 1) =>
    let n : Int := q.num * ((10 ^ (k + 1) / q.den : Nat) : Int)
    let sgn : PyStr := if n < 0 then ['-'] else []
    let ds := (toString n.natAbs).data
    let ds := if ds.length ≤ k + 1 then (List.replicate (k + 2 - ds.length) '0') ++ ds else ds
    sgn ++ ds.take (ds.length - (k + 1)) ++ '.' :: ds.drop (ds.length - (k + 1))
  | none => (toString q.num).data ++ '/' :: (toString q.den).data

/-! ## `labxtract/core/models.py` -/

/-- `TestStatus` enum. -/
inductive TestStatus where
  | NORMAL | HIGH | LOW | ABNORMAL | NOT_DETECTED | POSITIVE | NEGATIVE | SUSPICIOUS
deriving DecidableEq

/-- `TestCategory` enum. -/
inductive TestCategory where
  | BLOOD_CHEMISTRY | HEMATOLOGY | HORMONES | URINE | MICROBIOLOGY | IMMUNOLOGY | GENERAL | OTHER
deriving DecidableEq

/-- The `value` field of `LabTest`: `Union[float, str]`. -/
inductive PyValue where
  | num (q : ℚ)
  | pstr (s : PyStr)
deriving DecidableEq

/-- `str(value)` for a `Union[float, str]` value. -/
def pyStrOfValue : PyValue → PyStr
  | .num q => pyFloatRepr q
  | .pstr s => s

/-- The `LabTest` dataclass.  The inert provenance fields
(`sample_date`, `result_date`, `sheet_name`, `file_name`, `notes`) are
omitted: no claim mentions them and no embedded operation reads them. -/
structure LabTest where
  name : PyStr
  original_name : PyStr
  value : Option PyValue := none
  numeric_value : Option ℚ := none
  text_value : Option PyStr := none
  original_value : Option PyStr := none
  unit : Option PyStr := none
  reference_min : Option ℚ := none
  reference_max : Option ℚ := none
  reference_text : Option PyStr := none
  status : Option TestStatus := none
  flag : Option PyStr := none
  category : Option TestCategory := none
  subcategory : Option PyStr := none
  doctor : Option PyStr := none
  row_number : Option Nat := none
deriving DecidableEq

def strs (l : List String) : List PyStr := l.map String.data

/-- `LabTest._determine_status_from_flag`: the if/elif keyword chain over the
lowercased flag (`None` result = no branch matched, status left unchanged). -/
def statusFromFlag (fl : PyStr) : Option TestStatus :=
  let f := lowerStr fl
  if subS "норма".data f || subS "normal".data f then some .NORMAL
  else if subS "повыш".data f || subS "high".data f || subS "повышен".data f then some .HIGH
  else if subS "пониж".data f || subS "low".data f || subS "понижен".data f then some .LOW
  else if subS "сомнит".data f || subS "abnormal".data f then some .ABNORMAL
  else if subS "не обнар".data f || subS "not detected".data f || subS "отрицат".data f
       || subS "negative".data f then some .NOT_DETECTED
  else if subS "положит".data f || subS "positive".data f then some .POSITIVE
  else if subS "сомнит".data f || subS "suspicious".data f then some .SUSPICIOUS
  else none

/-- `LabTest._determine_status_from_reference` (all three inputs present). -/
def statusFromReference (v lo hi : ℚ) : TestStatus :=
  if v < lo then .LOW else if v > hi then .HIGH else .NORMAL

/-- The keyword tables of `LabTest._determine_category` (models.py), in
source order. -/
def modelsCategoryTables : List (TestCategory × List PyStr) :=
  [ (.HEMATOLOGY, strs ["гемоглобин", "лейкоцит", "эритроцит", "тромбоцит",
      "гематокрит", "соэ", "нейтрофил", "лимфоцит", "моноцит",
      "эозинофил", "базофил", "hgb", "wbc", "rbc", "plt", "hct"]),
    (.BLOOD_CHEMISTRY, strs ["глюкоз", "креатинин", "мочевин", "холестерин", "билирубин",
      "алт", "аст", "ггт", "щелочн", "фосфатаз", "белок", "альбумин",
      "липопротеид", "триглицерид", "мочев", "кислот", "кальци", "железо"]),
    (.HORMONES, strs ["ттг", "тиреотропн", "т4", "т3", "кортизол", "инсулин",
      "пролактин", "эстрадиол", "тестостерон", "прогестерон"]),
    (.URINE, strs ["моч", "оам", "урин", "протеинурия", "глюкозурия"]),
    (.MICROBIOLOGY, strs ["микрофлор", "бактери", "гриб", "трихомонад", "кандид",
      "стафилококк", "стрептококк", "посев", "чувствительн"]),
    (.IMMUNOLOGY, strs ["вич", "гепатит", "сифилис", "антител", "антиген", "рмп"]) ]

/-- `LabTest._determine_category`: first category one of whose keywords is a
substring of the lowercased name; default `OTHER`. -/
def determineCategoryM (name : PyStr) : TestCategory :=
  let nl := lowerStr name
  match modelsCategoryTables.find? (fun p => p.2.any (fun k => subS k nl)) with
  | some p => p.1
  | none => .OTHER

/-- `LabTest.__post_init__`.  The method's four sequential mutations are
written as one record update: each later mutation reads only fields the
earlier ones leave unchanged, except the status derivation, which reads the
`numeric_value` produced by the value split — threaded here as `nv`. -/
def LabTest.postInit (t0 : LabTest) : LabTest :=
  let ov :=
    match t0.original_value, t0.value with
    | none, some v => some (pyStrOfValue v)
    | o, _ => o
  let nv :=
    match t0.value with
    | some (.num q) => some q
    | some (.pstr _) => none
    | none => t0.numeric_value
  let tv :=
    match t0.value with
    | some (.num _) => none
    | some (.pstr s) => some s
    | none => t0.text_value
  let st :=
    if pyTruthyS t0.flag then
      match statusFromFlag (t0.flag.getD []) with
      | some s => some s
      | none => t0.status
    else
      match nv, t0.reference_min, t0.reference_max with
      | some v, some lo, some hi => some (statusFromReference v lo hi)
      | _, _, _ => t0.status
  let cat :=
    match t0.category with
    | none => some (determineCategoryM t0.name)
    | some c => some c
  { t0 with original_value := ov, numeric_value := nv, text_value := tv,
            status := st, category := cat }

/-- The `LabReport` dataclass (fields the claims are about; `patient`,
dates and provenance strings are inert and omitted). -/
structure LabReport where
  tests : List LabTest := []
  total_tests : Nat := 0
  abnormal_tests : Nat := 0
deriving DecidableEq

/-- `t.status in [HIGH, LOW, ABNORMAL, SUSPICIOUS]` (a `None` status is
never in the list). -/
def isAbnormal : Option TestStatus → Bool
  | some .HIGH => true
  | some .LOW => true
  | some .ABNORMAL => true
  | some .SUSPICIOUS => true
  | _ => false

/-- `LabReport.__post_init__`: recompute both counters from `tests`. -/
def LabReport.postInit (r : LabReport) : LabReport :=
  { r with total_tests := r.tests.length,
           abnormal_tests := (r.tests.filter (fun t => isAbnormal t.status)).length }

/-- `LabReport.add_test`: append and increment the counters. -/
def LabReport.addTest (r : LabReport) (t : LabTest) : LabReport :=
  { r with tests := r.tests ++ [t],
           total_tests := r.total_tests + 1,
           abnormal_tests := r.abnormal_tests + (if isAbnormal t.status then 1 else 0) }

/-! ## `labxtract/parsers/excel_parser.py` — `ExcelLabParser` -/

/-- A sheet grid as handed over by `pd.ExcelFile.parse(header=None, dtype=str)`:
rows of optional string cells, `none` = `NaN`. -/
abbrev Grid := List (List (Option PyStr))

/-- Semantic column roles (keys of the keyword dicts). -/
inductive ColRole where
  | test_name | result | unit | reference | flag | date_sample | date_result | doctor | notes
deriving DecidableEq

/-- `ExcelLabParser.HEADER_KEYWORDS`, in dict (insertion) order. -/
def headerKeywordsEx : List (ColRole × List PyStr) :=
  [ (.test_name, strs ["показатель", "анализ", "название", "test", "parameter"]),
    (.result, strs ["результат", "значение", "value", "уровень", "level"]),
    (.unit, strs ["ед.изм", "единиц", "unit", "измерен", "measure"]),
    (.reference, strs ["норма", "референс", "reference", "диапазон", "range"]),
    (.flag, strs ["флаг", "flag", "статус", "status"]),
    (.date_sample, strs ["дата взятия", "дата исслед", "sample date", "collection"]),
    (.date_result, strs ["дата выполн", "дата результата", "result date", "report date"]),
    (.doctor, strs ["врач", "doctor", "исполнитель", "executor"]) ]

/-- The first role (in dict order) one of whose keywords is a substring of
the lowercased cell text — the role at which `_identify_columns`' inner
loop `break`s for this cell. -/
def cellRoleEx (cellText : PyStr) : Option ColRole :=
  (headerKeywordsEx.find? (fun p => p.2.any (fun kw => subS kw cellText))).map Prod.fst

/-- Role of one (optional) header cell in `_identify_columns`
(`NaN` cells are skipped; others are lowercased and keyword-matched). -/
def cellRoleOfEx : Option PyStr → Option ColRole
  | none => none
  | some s => cellRoleEx (lowerStr s)

/-- Loop of `ExcelLabParser._identify_columns`: `acc` is the `columns` dict
(role → column index, insertion-ordered); a role is assigned only if not
yet present ("Берем первое совпадение"). -/
def identifyColumnsGo (acc : List (ColRole × Nat)) (i : Nat) :
    List (Option PyStr) → List (ColRole × Nat)
  | [] => acc
  | c :: cs =>
    let acc1 :=
      match cellRoleOfEx c with
      | none => acc
      | some r => if (acc.lookup r).isSome then acc else acc ++ [(r, i)]
    identifyColumnsGo acc1 (i + 1) cs

/-- `ExcelLabParser._identify_columns`. -/
def identifyColumns (row : List (Option PyStr)) : List (ColRole × Nat) :=
  identifyColumnsGo [] 0 row

/-- `' '.join(str(cell).lower() for cell in row.dropna())` — used both by
`_find_header_row` and `TableFinder._row_to_text`. -/
def rowToText (row : List (Option PyStr)) : PyStr :=
  joinSp ((row.filterMap id).map lowerStr)

/-- `_is_empty_row` (defined identically in `ExcelLabParser` and
`TableFinder`): every cell `NaN` or whitespace-only. -/
def isEmptyRowPd (row : List (Option PyStr)) : Bool :=
  row.all fun c =>
    match c with
    | none => true
    | some s => (pyStrip s).isEmpty

/-- Keyword test of one row text in `_find_header_row`:
a test-name keyword and (a result or a unit keyword). -/
def isHeaderRowEx (t : PyStr) : Bool :=
  ((strs ["показатель", "анализ", "название", "test", "parameter"]).any (fun kw => subS kw t))
    && (((strs ["результат", "значение", "value", "уровень", "level"]).any (fun kw => subS kw t))
      || ((strs ["ед.изм", "единиц", "unit", "измерен", "measure"]).any (fun kw => subS kw t)))

/-- `ExcelLabParser._find_header_row`: first of the leading
`min(20, len(df))` rows whose text passes `isHeaderRowEx`. -/
def findHeaderRow (g : Grid) : Option Nat :=
  (List.range (min 20 g.length)).find? (fun i => isHeaderRowEx (rowToText (g.getD i [])))

/-- `ExcelLabParser.TEST_CATEGORIES`, in dict order (keyword lists copied
verbatim, including the source's `'биллирубин'` and `'тsh'` spellings). -/
def parserCategoryTables : List (TestCategory × List PyStr) :=
  [ (.HEMATOLOGY, strs ["гемоглобин", "лейкоциты", "эритроциты", "тромбоциты",
      "гематокрит", "соэ", "нейтрофилы", "лимфоциты",
      "моноциты", "эозинофилы", "базофилы", "hgb", "wbc",
      "rbc", "plt", "hct", "esr"]),
    (.BLOOD_CHEMISTRY, strs ["глюкоза", "креатинин", "мочевина", "холестерин",
      "биллирубин", "алт", "аст", "ггт", "щелочная фосфатаза",
      "белок", "альбумин", "глобулин", "липопротеиды",
      "триглицериды", "мочевая кислота", "глюк", "crea",
      "urea", "chol", "alt", "ast", "bilirubin"]),
    (.HORMONES, strs ["ттг", "тиреотропный", "т4", "т3", "кортизол",
      "инсулин", "пролактин", "эстрадиол", "тестостерон",
      "прогестерон", "лг", "фсг", "тsh", "thyroid"]),
    (.URINE, strs ["моча", "оам", "белок", "глюкоза", "кетоны",
      "билирубин", "уробилиноген", "нитриты", "лейкоциты",
      "эритроциты", "цилиндры", "эпителий", "соли",
      "urine", "protein", "glucose", "ketones"]),
    (.MICROBIOLOGY, strs ["микрофлора", "бактерии", "грибы", "трихомонады",
      "кандида", "стафилококк", "стрептококк", "посев",
      "чувствительность", "culture", "sensitivity"]),
    (.IMMUNOLOGY, strs ["вич", "гепатит", "сифилис", "антитела", "антиген",
      "рмп", "hbsag", "anti-hcv", "hiv", "hepatitis",
      "syphilis", "antibody", "antigen"]) ]

/-- The `ignore_patterns` of `_looks_like_test`. -/
def ignoreHeaderPatterns : List PyStr :=
  strs ["лабораторные", "исследование", "анализ крови",
        "общий анализ", "биохимический", "гормональный"]

/-- `ExcelLabParser._looks_like_test`. -/
def looksLikeTest (t : PyStr) : Bool :=
  if t.isEmpty then false
  else
    let tl := pyStrip (lowerStr t)
    if ignoreHeaderPatterns.any (fun p => subS p tl) then false
    else if parserCategoryTables.any (fun p => p.2.any (fun k => subS k tl)) then true
    else
      let words := pySplit tl
      if 1 ≤ words.length && words.length ≤ 5 then
        !(endsW "исследование".data tl || endsW "анализ".data tl || endsW "тест".data tl)
      else false

/-- `ExcelLabParser._update_category`: new `(current_category,
current_subcategory)` state (for-else: first matching category, else OTHER). -/
def updateCategoryP (categoryName : PyStr) : TestCategory × Option PyStr :=
  let cn := pyStrip categoryName
  let cat :=
    match parserCategoryTables.find? (fun p => p.2.any (fun k => subS k (lowerStr cn))) with
    | some p => p.1
    | none => TestCategory.OTHER
  (cat, some cn)

/-- `ExcelLabParser._get_cell_value`. -/
def getCellValue (row : List (Option PyStr)) (ci : Option Nat) : Option PyStr :=
  match ci with
  | none => none
  | some i =>
    if row.length ≤ i then none
    else
      match row.getD i none with
      | none => none
      | some s => some (pyStrip s)

/-- The `text_mapping` of `_parse_result_value`, in dict order. -/
def resultTextMapping : List (PyStr × PyStr) :=
  [("не обнаружено".data, "Не обнаружено".data),
   ("отрицательный".data, "Отрицательный".data),
   ("положительный".data, "Положительный".data),
   ("норма".data, "Норма".data),
   ("отр".data, "Отрицательный".data),
   ("пол".data, "Положительный".data),
   ("обнаружено".data, "Обнаружено".data),
   ("полож".data, "Положительный".data)]

/-- `re.sub(r'[^\d\.,\-+\s]', ' ', ·)` on one character. -/
def cleanResChar (c : Char) : Char :=
  if isDigitC c || c = '.' || c = ',' || c = '-' || c = '+' || isPyWs c then c else ' '

/-- `ExcelLabParser._parse_result_value` → `(numeric_value, text_value)`. -/
def parseResultValue (v : Option PyStr) : Option ℚ × Option PyStr :=
  match v with
  | none => (none, none)
  | some s0 =>
    if s0.isEmpty then (none, none)
    else
      let vs := pyStrip s0
      match scanMap resultTextMapping (lowerStr vs) with
      | some canon => (none, some canon)
      | none =>
        let cl := (vs.map cleanResChar).map (fun c => if c = ',' then '.' else c)
        match reFindRes cl with
        | [] => (none, some vs)
        | n1 :: rest =>
          if vs.contains '-' || vs.contains '—' || vs.contains '–' then
            match rest with
            | n2 :: _ =>
              let q1 := strToRat n1
              let q2 := strToRat n2
              (some (ratMean q1 q2), some (pyFloatRepr q1 ++ '-' :: pyFloatRepr q2))
            | [] => (some (strToRat n1), none)
          else (some (strToRat n1), none)

/-- `re.sub(r'[^\d\.,\-—–\s]', ' ', ·)` on one character. -/
def cleanRefChar (c : Char) : Char :=
  if isDigitC c || c = '.' || c = ',' || c = '-' || c = '—' || c = '–' || isPyWs c then c
  else ' '

/-- `ExcelLabParser._parse_reference_range` →
`(reference_min, reference_max, reference_text)`.  Note that for a falsy
input the source returns `str(ref_str)`, i.e. the literal string `"None"`
when the cell was `None`. -/
def parseReferenceRange (r : Option PyStr) : Option ℚ × Option ℚ × PyStr :=
  match r with
  | none => (none, none, "None".data)
  | some s =>
    if s.isEmpty then (none, none, s)
    else
      let cl := (s.map cleanRefChar).map (fun c => if c = ',' then '.' else c)
      match reFindRef cl with
      | n1 :: n2 :: _ => (some (strToRat n1), some (strToRat n2), s)
      | [n1] => (some (strToRat n1), some (strToRat n1), s)
      | [] => (none, none, s)

/-- The dict built by `_parse_test_row` (the `sample_date`/`result_date`
entries are omitted like the corresponding `LabTest` fields). -/
structure TestData where
  original_name : PyStr
  value : Option PyStr := none
  numeric_value : Option ℚ := none
  text_value : Option PyStr := none
  unit : Option PyStr := none
  reference_min : Option ℚ := none
  reference_max : Option ℚ := none
  reference_text : PyStr := []
  flag : Option PyStr := none
  doctor : Option PyStr := none
  row_number : Nat := 0
  category : Option TestCategory := none
  subcategory : Option PyStr := none
deriving DecidableEq

/-- `ExcelLabParser._parse_test_row`. -/
def parseTestRow (row : List (Option PyStr)) (cols : List (ColRole × Nat)) (i : Nat) :
    Option TestData :=
  match getCellValue row (cols.lookup .test_name) with
  | none => none
  | some tn =>
    if tn.isEmpty then none
    else
      let resultV := getCellValue row (cols.lookup .result)
      let unitV := getCellValue row (cols.lookup .unit)
      let refV := getCellValue row (cols.lookup .reference)
      let flagV := getCellValue row (cols.lookup .flag)
      let doctorV := getCellValue row (cols.lookup .doctor)
      let (nv, tv) := parseResultValue resultV
      let (rmin, rmax, rtext) := parseReferenceRange refV
      some { original_name := tn, value := resultV, numeric_value := nv, text_value := tv,
             unit := unitV, reference_min := rmin, reference_max := rmax,
             reference_text := rtext, flag := flagV, doctor := doctorV, row_number := i }

/-- `ExcelLabParser._determine_test_category`. -/
def determineTestCategoryP (testName : PyStr) (cur : Option TestCategory) : TestCategory :=
  match cur with
  | some c => c
  | none =>
    match parserCategoryTables.find? (fun p => p.2.any (fun k => subS k (lowerStr testName))) with
    | some p => p.1
    | none => TestCategory.OTHER

/-- `ExcelLabParser._create_test_from_data`: build the `LabTest` (whose
`__post_init__` then runs).  The surrounding `try/except` can never fire —
dataclass construction over these fields is total. -/
def createTestFromData (d : TestData) : LabTest :=
  let category := determineTestCategoryP d.original_name d.category
  LabTest.postInit
    { name := d.original_name, original_name := d.original_name,
      value := d.value.map PyValue.pstr,
      numeric_value := d.numeric_value, text_value := d.text_value,
      original_value := d.value,
      unit := d.unit, reference_min := d.reference_min, reference_max := d.reference_max,
      reference_text := some d.reference_text,
      flag := d.flag, category := some category, subcategory := d.subcategory,
      doctor := d.doctor, row_number := some d.row_number, status := none }

/-- Row loop of `_find_and_parse_table`, with the parser's
`(current_category, current_subcategory)` instance state made an explicit
accumulator `st` (both start as `None`). -/
def tableRowsGo (cols : List (ColRole × Nat)) :
    Option TestCategory × Option PyStr → Nat → List (List (Option PyStr)) → List TestData
  | _, _, [] => []
  | st, i, row :: rest =>
    if isEmptyRowPd row then tableRowsGo cols st (i + 1) rest
    else
      let tn := getCellValue row (cols.lookup .test_name)
      if pyTruthyS tn && !looksLikeTest (tn.getD []) then
        let (cat, sub) := updateCategoryP (tn.getD [])
        tableRowsGo cols (some cat, sub) (i + 1) rest
      else
        match parseTestRow row cols i with
        | some d =>
          { d with category := st.1, subcategory := st.2 } :: tableRowsGo cols st (i + 1) rest
        | none => tableRowsGo cols st (i + 1) rest

/-- `ExcelLabParser._find_and_parse_table`. -/
def findAndParseTable (g : Grid) : List TestData :=
  match findHeaderRow g with
  | none => []
  | some h =>
    let cols := identifyColumns (g.getD h [])
    if cols.isEmpty then []
    else tableRowsGo cols (none, none) (h + 1) (g.drop (h + 1))

/-- `ExcelLabParser._parse_sheet` (patient extraction is inert for the
claims; the report starts with `__post_init__` counters and every created
test is added with `add_test`). -/
def parseSheet (g : Grid) : Option LabReport :=
  let td := findAndParseTable g
  if td.isEmpty then none
  else some (td.foldl (fun r d => r.addTest (createTestFromData d)) (LabReport.postInit {}))

/-! ## `labxtract/parsers/table_finder.py` — `TableFinder` -/

/-- Suffix of `t` after the first (leftmost) occurrence of `kw`;
`none` when `kw` does not occur.  (All keywords used are non-empty.) -/
def dropAfterFirst (kw : PyStr) : PyStr → Option PyStr
  | [] => none
  | c :: cs =>
    if pfx kw (c :: cs) then some ((c :: cs).drop kw.length) else dropAfterFirst kw cs

/-- Occurrence of a list of keywords, in order and without overlap — the
matching condition of a regex `.*k1.*k2.*…` (taking the first occurrence of
each keyword is equivalent, and leaves the maximal suffix for the rest). -/
def containsInOrder : PyStr → List PyStr → Bool
  | _, [] => true
  | t, k :: ks =>
    match dropAfterFirst k t with
    | some rest => containsInOrder rest ks
    | none => false

/-- `TableFinder.TABLE_START_PATTERNS` as keyword sequences: each pattern is
`.*k1.*k2.*…` and `re.match` requires the keywords, in order, before any
newline (`.` does not cross `'\n'` and the match is anchored at 0). -/
def tableStartSeqs : List (List PyStr) :=
  [ strs ["показатель", "результат"],
    strs ["название", "анализ", "значение"],
    strs ["test", "name", "result", "value"],
    strs ["parameter", "result", "unit"] ]

/-- `any(re.match(p, row_text, re.IGNORECASE) for p in TABLE_START_PATTERNS)`
(the row text is already lowercased, so `IGNORECASE` is inert). -/
def matchesStartPattern (t : PyStr) : Bool :=
  tableStartSeqs.any (fun kws => containsInOrder (t.takeWhile (fun c => c != '\n')) kws)

/-- `TableFinder.REQUIRED_COLUMNS` (three keyword categories). -/
def requiredColumnsTF : List (List PyStr) :=
  [ strs ["показатель", "анализ", "название", "test", "parameter"],
    strs ["результат", "значение", "value", "result"],
    strs ["ед.", "единиц", "unit", "измерен"] ]

/-- `TableFinder._row_contains_required_columns`: keyword hits in at least
2 of the 3 required categories. -/
def rowContainsRequired (t : PyStr) : Bool :=
  2 ≤ (requiredColumnsTF.filter (fun kws => kws.any (fun k => subS k t))).length

/-- The `starts` list built by `_find_potential_table_starts`' loop, before
`sorted(set(...))`: per row (within the first `min(100, len)` rows) one
append when a start pattern matches, and one more when the required-columns
test passes. -/
def potentialStartsRaw (g : Grid) : List Nat :=
  (List.range (min 100 g.length)).flatMap fun i =>
    (if matchesStartPattern (rowToText (g.getD i [])) then [i] else [])
      ++ (if rowContainsRequired (rowToText (g.getD i [])) then [i] else [])

/-- `sorted(set(starts))`.  The loop emits indices in nondecreasing order
(duplicates are adjacent), so sorting the set of its elements is exactly
first-occurrence deduplication. -/
def candidateStarts (g : Grid) : List Nat := (potentialStartsRaw g).dedup

/-- The `< 3 rows apart` filter over the sorted candidate starts
(`prev_start` starts at `-10`). -/
def filterCloseGo (prev : Int) : List Nat → List Nat
  | [] => []
  | s :: ss =>
    if 3 ≤ (s : Int) - prev then s :: filterCloseGo (s : Int) ss else filterCloseGo prev ss

def filterClose (l : List Nat) : List Nat := filterCloseGo (-10) l

/-- The `column_mapping` of `TableFinder._determine_column_type`, in dict
order. -/
def columnMappingTF : List (ColRole × List PyStr) :=
  [ (.test_name, strs ["показатель", "анализ", "название", "test", "parameter", "name"]),
    (.result, strs ["результат", "значение", "value", "result", "level"]),
    (.unit, strs ["ед.", "единиц", "unit", "измерен", "measure", "единицы"]),
    (.reference, strs ["норма", "референс", "reference", "диапазон", "range", "нормы"]),
    (.flag, strs ["флаг", "flag", "статус", "status", "отклонение"]),
    (.date_sample, strs ["дата взятия", "дата исследования", "sample date", "collection"]),
    (.date_result, strs ["дата выполнения", "дата результата", "result date"]),
    (.doctor, strs ["врач", "doctor", "исполнитель", "executor", "лаборант"]),
    (.notes, strs ["примечание", "комментарий", "notes", "comment"]) ]

/-- `TableFinder._determine_column_type` applied to the raw cell string
(the caller lowercases, the callee strips and lowercases again; lowering
twice equals lowering once). -/
def determineColumnType (cellText : PyStr) : Option ColRole :=
  let t := pyStrip (lowerStr cellText)
  (columnMappingTF.find? (fun p => p.2.any (fun kw => subS kw t))).map Prod.fst

/-- `columns[column_type] = col_idx` on an insertion-ordered dict:
overwrite the existing binding, else append. -/
def insertOver (acc : List (ColRole × Nat)) (r : ColRole) (i : Nat) : List (ColRole × Nat) :=
  if (acc.lookup r).isSome then acc.map (fun p => if p.1 = r then (r, i) else p)
  else acc ++ [(r, i)]

/-- Role of one (optional) header cell in `_identify_table_columns`. -/
def cellRoleOfTF : Option PyStr → Option ColRole
  | none => none
  | some s => determineColumnType s

/-- Loop of `TableFinder._identify_table_columns` — unlike
`ExcelLabParser._identify_columns` there is no "first occurrence wins"
guard: a later matching column overwrites the earlier one. -/
def identifyTableColumnsGo (acc : List (ColRole × Nat)) (i : Nat) :
    List (Option PyStr) → List (ColRole × Nat)
  | [] => acc
  | c :: cs =>
    let acc1 :=
      match cellRoleOfTF c with
      | none => acc
      | some r => insertOver acc r i
    identifyTableColumnsGo acc1 (i + 1) cs

/-- `TableFinder._identify_table_columns`. -/
def identifyTableColumns (row : List (Option PyStr)) : List (ColRole × Nat) :=
  identifyTableColumnsGo [] 0 row

/-- A located table.  The `column_types` / `column_count` metadata of the
source dict is omitted: it never influences which tables `find_tables`
returns (validity and overlap filtering use `data` / `row_count` only). -/
structure TableInfo where
  start_row : Nat
  end_row : Nat
  data : Grid
  columns : List (ColRole × Nat)
  row_count : Nat
deriving DecidableEq

/-- `df.iloc[a:b]`. -/
def sliceRows (g : Grid) (a b : Nat) : Grid := (g.drop a).take (b - a)

/-- The 2-row lookahead of `_find_table_end`
(`range(1, min(lookahead + 1, len(df) - row_idx))`). -/
def lookaheadEmpty (g : Grid) (rowIdx : Nat) : Bool :=
  (List.range' 1 (min 2 (g.length - rowIdx - 1))).all fun k =>
    isEmptyRowPd (g.getD (rowIdx + k) [])

/-- Loop of `_find_table_end` from `rowIdx` (fuelled; `fuel = len` suffices). -/
def findTableEndGo (g : Grid) : Nat → Nat → Nat
  | _, 0 => g.length - 1
  | rowIdx, fuel + 1 =>
    if g.length ≤ rowIdx then g.length - 1
    else if isEmptyRowPd (g.getD rowIdx []) && lookaheadEmpty g rowIdx then rowIdx - 1
    else findTableEndGo g (rowIdx + 1) fuel

/-- `TableFinder._find_table_end`. -/
def findTableEnd (g : Grid) (startRow : Nat) : Nat :=
  if g.length - 1 ≤ startRow then startRow
  else findTableEndGo g (startRow + 1) g.length

/-- `TableFinder._extract_table_from_start`. -/
def extractTable (g : Grid) (startRow : Nat) : Option TableInfo :=
  if g.length ≤ startRow + 1 then none
  else
    let endRow := findTableEnd g startRow
    if endRow ≤ startRow then none
    else
      let data := sliceRows g startRow (endRow + 1)
      some { start_row := startRow, end_row := endRow, data := data,
             columns := identifyTableColumns (data.getD 0 []), row_count := data.length }

/-- `table_data.shape[1]`: pandas grids are rectangular, so the common row
length; totalised over ragged inputs as the maximal row length. -/
def gridWidth (data : Grid) : Nat := (data.map List.length).foldr max 0

/-- `table_data.notna().sum().sum()` (a non-`NaN` cell counts even if it is
whitespace-only). -/
def countNonNA (data : Grid) : Nat :=
  (data.map (fun row => (row.filter Option.isSome).length)).sum

/-- `TableFinder._is_valid_table`. -/
def isValidTable (data : Grid) : Bool :=
  if data.isEmpty || data.length < 2 then false
  else if data.length < 3 then false
  else if countNonNA data < 5 then false
  else if gridWidth data < 2 then false
  else true

/-- `TableFinder._block_could_be_table`. -/
def blockCouldBeTable (block : Grid) : Bool :=
  if block.length < 3 then false
  else
    (List.range (min 3 block.length)).any fun i =>
      2 ≤ ((strs ["показатель", "результат", "ед.", "норма"]).filter
            (fun kw => subS kw (rowToText (block.getD i [])))).length

/-- Loop of `TableFinder._find_tables_alternative`: find maximal runs of
non-empty rows; a run of ≥ 5 rows that could be a table is extracted
(note: without the `_is_valid_table` check of the main path). -/
def altScanGo (g : Grid) : Option Nat → Nat → Nat → Grid → List TableInfo
  | curStart, blockRows, _, [] =>
    match curStart with
    | some s =>
      if 5 ≤ blockRows && blockCouldBeTable (g.drop s) then (extractTable g s).toList else []
    | none => []
  | curStart, blockRows, i, row :: rest =>
    if !isEmptyRowPd row then
      altScanGo g (some (curStart.getD i)) (blockRows + 1) (i + 1) rest
    else
      let emitted :=
        match curStart with
        | some s =>
          if 5 ≤ blockRows && blockCouldBeTable (sliceRows g s i) then (extractTable g s).toList
          else []
        | none => []
      emitted ++ altScanGo g none 0 (i + 1) rest

/-- `TableFinder._find_tables_alternative`. -/
def findTablesAlternative (g : Grid) : List TableInfo := altScanGo g none 0 0 g

/-- `tables.sort(key=lambda x: x['start_row'])` (Python's sort is stable,
as is insertion sort). -/
def sortTables (l : List TableInfo) : List TableInfo :=
  l.insertionSort (fun a b => a.start_row ≤ b.start_row)

/-- Loop of `_filter_overlapping_tables` (`current_end` starts at `-1`;
the `filtered[-1]` access is guarded by `current_end ≥ 0`, i.e. `acc ≠ []`). -/
def filterOverGo : List TableInfo → Int → List TableInfo → List TableInfo
  | acc, _, [] => acc
  | acc, curEnd, t :: ts =>
    if curEnd < (t.start_row : Int) then filterOverGo (acc ++ [t]) (t.end_row : Int) ts
    else
      match acc.getLast? with
      | some prev =>
        if prev.row_count < t.row_count then
          filterOverGo (acc.dropLast ++ [t]) (t.end_row : Int) ts
        else filterOverGo acc curEnd ts
      | none => filterOverGo acc curEnd ts

/-- `TableFinder._filter_overlapping_tables`. -/
def filterOverlapping (tables : List TableInfo) : List TableInfo :=
  if tables.isEmpty then [] else filterOverGo [] (-1) (sortTables tables)

/-- `df.empty`: no rows, or rows of width 0. -/
def dfEmpty (g : Grid) : Bool := g.isEmpty || g.all List.isEmpty

/-- `TableFinder.find_tables`. -/
def findTables (g : Grid) : List TableInfo :=
  if dfEmpty g then []
  else
    let tables := (filterClose (candidateStarts g)).filterMap fun s =>
      match extractTable g s with
      | some t => if isValidTable t.data then some t else none
      | none => none
    let tables2 := if tables.isEmpty then findTablesAlternative g else tables
    sortTables (filterOverlapping tables2)

/-! ## `labxtract/core/normalizer.py` — `DataNormalizer` -/

/-- Python's `\w` (word character), for the character set used by the
repository's tables: ASCII alphanumerics, `_`, the Cyrillic block, and the
superscript digits occurring in unit names (all satisfy `str.isalnum`). -/
def isPyWord (c : Char) : Bool :=
  c.isAlphanum || c = '_' || (0x400 ≤ c.toNat && c.toNat ≤ 0x4FF)
    || c.toNat = 0xB2 || c.toNat = 0xB3 || c.toNat = 0xB9
    || (0x2070 ≤ c.toNat && c.toNat ≤ 0x2079)

/-- The character set of `text.strip(' :;,-.')`. -/
def stripSetChars : List Char := [' ', ':', ';', ',', '-', '.']

def stripSetL (l : PyStr) : PyStr := l.dropWhile (fun c => stripSetChars.contains c)

def stripSetR : PyStr → PyStr
  | [] => []
  | c :: cs =>
    let r := stripSetR cs
    if r.isEmpty && stripSetChars.contains c then [] else c :: r

def stripSet (l : PyStr) : PyStr := stripSetR (stripSetL l)

/-- `re.sub(r'\s+', ' ', ·)`, fuelled (each step consumes at least one
character, so `fuel = length` suffices). -/
def collapseWsGo : Nat → PyStr → PyStr
  | 0, l => l
  | _, [] => []
  | fuel + 1, c :: cs =>
    if isPyWs c then ' ' :: collapseWsGo fuel (cs.dropWhile isPyWs)
    else c :: collapseWsGo fuel cs

/-- `re.sub(r'\s+', ' ', ·)`. -/
def collapseWs (l : PyStr) : PyStr := collapseWsGo l.length l

/-- `DataNormalizer._clean_string`. -/
def cleanString (t : PyStr) : PyStr :=
  if t.isEmpty then t else collapseWs (stripSet (joinSp (pySplit t)))

/-- `re.match(r'^[A-ZА-Я0-9]+$', word.upper())` — note that `ё` uppercases
to `Ё`, which is outside `А`–`Я`. -/
def isAcronymWord (w : PyStr) : Bool :=
  !w.isEmpty && (w.map pyUpper).all fun c =>
    ('A' ≤ c && c ≤ 'Z') || ('А' ≤ c && c ≤ 'Я') || ('0' ≤ c && c ≤ '9')

/-- Python `str.capitalize()`: first character uppercased, rest lowercased. -/
def pyCapitalize : PyStr → PyStr
  | [] => []
  | c :: cs => pyUpper c :: lowerStr cs

/-- Case-insensitive prefix test. -/
def ciPfx (w l : PyStr) : Bool := pfx (lowerStr w) (lowerStr l)

/-- `\b` before the match: start of string or a non-word character. -/
def bndL : Option Char → Bool
  | none => true
  | some c => !isPyWord c

/-- `\b` after the match: end of string or a non-word character. -/
def bndR : PyStr → Bool
  | [] => true
  | c :: _ => !isPyWord c

/-- `re.sub(r'\bW\b', rep, ·, flags=re.IGNORECASE)` for a word `W`:
left-to-right scan carrying the previous original character (scanning
resumes after the matched region of the original string). -/
def replWordGo (w rep : PyStr) : Option Char → Nat → PyStr → PyStr
  | _, 0, l => l
  | _, _, [] => []
  | prev, fuel + 1, c :: cs =>
    if ciPfx w ((c :: cs).take w.length) && bndL prev && bndR ((c :: cs).drop w.length) then
      rep ++ replWordGo w rep ((c :: cs).take w.length).getLast? fuel ((c :: cs).drop w.length)
    else c :: replWordGo w rep (some c) fuel cs

def replaceWordCI (w rep l : PyStr) : PyStr := replWordGo w rep none l.length l

/-- The acronym-correcting substitutions of `_capitalize_name`, in order. -/
def acronymRepls : List (PyStr × PyStr) :=
  [("Alt".data, "АЛТ".data), ("Ast".data, "АСТ".data), ("Tsh".data, "ТТГ".data),
   ("Hba1c".data, "HbA1c".data), ("Hba".data, "HbA".data), ("Hgb".data, "HGB".data),
   ("Wbc".data, "WBC".data), ("Rbc".data, "RBC".data), ("Plt".data, "PLT".data),
   ("Hct".data, "HCT".data)]

/-- `DataNormalizer._capitalize_name`. -/
def capitalizeName (name : PyStr) : PyStr :=
  let caps := (pySplit name).map fun w =>
    if isAcronymWord w then w.map pyUpper else pyCapitalize w
  acronymRepls.foldl (fun acc p => replaceWordCI p.1 p.2 acc) (joinSp caps)

/-- `DataNormalizer.TEST_NAME_MAPPING`, in dict order. -/
def testNameMapping : List (PyStr × PyStr) :=
  [("гемоглобин(hgb)".data, "Гемоглобин".data),
   ("гемоглобин".data, "Гемоглобин".data),
   ("hgb".data, "Гемоглобин".data),
   ("hemoglobin".data, "Гемоглобин".data),
   ("лейкоциты(wbc)".data, "Лейкоциты".data),
   ("лейкоциты".data, "Лейкоциты".data),
   ("wbc".data, "Лейкоциты".data),
   ("white blood cells".data, "Лейкоциты".data),
   ("эритроциты(rbc)".data, "Эритроциты".data),
   ("эритроциты".data, "Эритроциты".data),
   ("rbc".data, "Эритроциты".data),
   ("red blood cells".data, "Эритроциты".data),
   ("тромбоциты(plt)".data, "Тромбоциты".data),
   ("тромбоциты".data, "Тромбоциты".data),
   ("plt".data, "Тромбоциты".data),
   ("platelets".data, "Тромбоциты".data),
   ("гематокрит(hct)".data, "Гематокрит".data),
   ("гематокрит".data, "Гематокрит".data),
   ("hct".data, "Гематокрит".data),
   ("соэ".data, "СОЭ".data),
   ("соэ по панченкову".data, "СОЭ".data),
   ("esr".data, "СОЭ".data),
   ("глюкоза".data, "Глюкоза".data),
   ("глюкоза в крови".data, "Глюкоза".data),
   ("glucose".data, "Глюкоза".data),
   ("креатинин".data, "Креатинин".data),
   ("creatinine".data, "Креатинин".data),
   ("мочевина".data, "Мочевина".data),
   ("urea".data, "Мочевина".data),
   ("холестерин".data, "Холестерин общий".data),
   ("холестерин общий".data, "Холестерин общий".data),
   ("cholesterol".data, "Холестерин общий".data),
   ("алт".data, "АЛТ".data),
   ("аланинаминотрансфераза".data, "АЛТ".data),
   ("alt".data, "АЛТ".data),
   ("аст".data, "АСТ".data),
   ("аспартатаминотрансфераза".data, "АСТ".data),
   ("ast".data, "АСТ".data),
   ("билирубин общий".data, "Билирубин общий".data),
   ("общий билирубин".data, "Билирубин общий".data),
   ("total bilirubin".data, "Билирубин общий".data),
   ("билирубин прямой".data, "Билирубин прямой".data),
   ("прямой билирубин".data, "Билирубин прямой".data),
   ("direct bilirubin".data, "Билирубин прямой".data),
   ("общий белок".data, "Общий белок".data),
   ("total protein".data, "Общий белок".data),
   ("альбумин".data, "Альбумин".data),
   ("albumin".data, "Альбумин".data),
   ("ттг".data, "ТТГ".data),
   ("тиреотропный гормон".data, "ТТГ".data),
   ("tsh".data, "ТТГ".data),
   ("thyroid stimulating hormone".data, "ТТГ".data),
   ("т4 свободный".data, "Т4 свободный".data),
   ("свободный т4".data, "Т4 свободный".data),
   ("free t4".data, "Т4 свободный".data),
   ("т3 свободный".data, "Т3 свободный".data),
   ("свободный т3".data, "Т3 свободный".data),
   ("free t3".data, "Т3 свободный".data),
   ("hba1c".data, "HbA1c".data),
   ("гликированный гемоглобин".data, "HbA1c".data),
   ("гемоглобин a1c".data, "HbA1c".data),
   ("glycated hemoglobin".data, "HbA1c".data),
   ("белок в моче".data, "Белок в моче".data),
   ("протеинурия".data, "Белок в моче".data),
   ("protein urine".data, "Белок в моче".data),
   ("глюкоза в моче".data, "Глюкоза в моче".data),
   ("глюкозурия".data, "Глюкоза в моче".data),
   ("glucose urine".data, "Глюкоза в моче".data),
   ("трихомонады".data, "Trichomonas vaginalis".data),
   ("trichomonas".data, "Trichomonas vaginalis".data),
   ("кандида".data, "Candida".data),
   ("дрожжевые клетки".data, "Candida".data),
   ("вич".data, "ВИЧ".data),
   ("hiv".data, "ВИЧ".data),
   ("антитела к вич".data, "ВИЧ".data),
   ("гепатит в".data, "Гепатит B".data),
   ("hbsag".data, "Гепатит B".data),
   ("гепатит b".data, "Гепатит B".data),
   ("гепатит с".data, "Гепатит C".data),
   ("анти-hcv".data, "Гепатит C".data),
   ("гепатит c".data, "Гепатит C".data),
   ("сифилис".data, "Сифилис".data),
   ("рмп".data, "Сифилис".data),
   ("syphilis".data, "Сифилис".data)]

/-- `DataNormalizer._normalize_test_name`. -/
def normalizeTestName (name : PyStr) : PyStr :=
  if name.isEmpty then name
  else
    let cn := cleanString name
    match scanMap testNameMapping (lowerStr cn) with
    | some v => v
    | none => capitalizeName cn

/-- `DataNormalizer.UNIT_NORMALIZATION`, in dict order. -/
def unitMapping : List (PyStr × PyStr) :=
  [("г/л".data, "г/л".data),
   ("г/л.".data, "г/л".data),
   ("г/л,".data, "г/л".data),
   ("гл".data, "г/л".data),
   ("ммоль/л".data, "ммоль/л".data),
   ("ммольл".data, "ммоль/л".data),
   ("ммоль".data, "ммоль/л".data),
   ("мкмоль/л".data, "мкмоль/л".data),
   ("мкмоль".data, "мкмоль/л".data),
   ("%".data, "%".data),
   ("процент".data, "%".data),
   ("percent".data, "%".data),
   ("10*9/л".data, "10⁹/л".data),
   ("10^9/л".data, "10⁹/л".data),
   ("10e9/л".data, "10⁹/л".data),
   ("10^9л".data, "10⁹/л".data),
   ("10*12/л".data, "10¹²/л".data),
   ("10^12/л".data, "10¹²/л".data),
   ("10e12/л".data, "10¹²/л".data),
   ("10^12л".data, "10¹²/л".data),
   ("ед/л".data, "Ед/л".data),
   ("е/л".data, "Ед/л".data),
   ("u/l".data, "Ед/л".data),
   ("мке/мл".data, "мкЕд/мл".data),
   ("мкме/мл".data, "мкЕд/мл".data),
   ("mu/l".data, "мкЕд/мл".data),
   ("нг/мл".data, "нг/мл".data),
   ("ng/ml".data, "нг/мл".data),
   ("пг".data, "пг".data),
   ("pg".data, "пг".data),
   ("фл".data, "фл".data),
   ("fl".data, "фл".data),
   ("фемтолитр".data, "фл".data),
   ("мг/дл".data, "мг/дл".data),
   ("mg/dl".data, "мг/дл".data),
   ("г/дл".data, "г/дл".data),
   ("g/dl".data, "г/дл".data),
   ("мл/ч".data, "мм/ч".data),
   ("mm/h".data, "мм/ч".data),
   ("миллиметрвчас".data, "мм/ч".data),
   ("безразмернаяединица".data, "б/р".data),
   ("безразмерная".data, "б/р".data),
   ("б/р".data, "б/р".data)]

/-- `clean_unit = re.sub(r'[^\w/]', '', str(unit).lower().strip())`. -/
def cleanUnit (u : PyStr) : PyStr :=
  (pyStrip (lowerStr u)).filter (fun c => isPyWord c || c = '/')

/-- `DataNormalizer._normalize_unit`. -/
def normalizeUnit (u : PyStr) : PyStr :=
  if u.isEmpty then u
  else
    match scanMap unitMapping (cleanUnit u) with
    | some v => v
    | none => pyStrip u

/-- The text-value `mapping` of `_normalize_text_value`, in dict order. -/
def textValueMapping : List (PyStr × PyStr) :=
  [("не обнаружено".data, "Не обнаружено".data),
   ("не обнар".data, "Не обнаружено".data),
   ("отрицательный".data, "Отрицательный".data),
   ("отрицат".data, "Отрицательный".data),
   ("отр".data, "Отрицательный".data),
   ("положительный".data, "Положительный".data),
   ("положит".data, "Положительный".data),
   ("пол".data, "Положительный".data),
   ("норма".data, "Норма".data),
   ("норм".data, "Норма".data),
   ("повышен".data, "Повышен".data),
   ("повыш".data, "Повышен".data),
   ("понижен".data, "Понижен".data),
   ("пониж".data, "Понижен".data),
   ("сомнительный".data, "Сомнительный".data),
   ("сомнит".data, "Сомнительный".data),
   ("единично".data, "Единично".data),
   ("един".data, "Единично".data),
   ("ед".data, "Единично".data),
   ("сплошь".data, "Сплошь".data),
   ("большое количество".data, "Большое количество".data),
   ("скопление".data, "Скопление".data),
   ("умеренное".data, "Умеренное".data),
   ("обильное".data, "Обильное".data),
   ("скудно".data, "Скудно".data)]

/-- `DataNormalizer._normalize_text_value`. -/
def normalizeTextValue (t : PyStr) : PyStr :=
  if t.isEmpty then t
  else
    match scanMap textValueMapping (pyStrip (lowerStr t)) with
    | some v => v
    | none => t

/-- The flag `mapping` of `_normalize_flag`, in dict order. -/
def flagMapping : List (PyStr × PyStr) :=
  [("норма".data, "Норма".data),
   ("normal".data, "Норма".data),
   ("повышен".data, "Повышен".data),
   ("high".data, "Повышен".data),
   ("понижен".data, "Понижен".data),
   ("low".data, "Понижен".data),
   ("сомнительный".data, "Сомнительный".data),
   ("abnormal".data, "Сомнительный".data),
   ("положительный".data, "Положительный".data),
   ("positive".data, "Положительный".data),
   ("отрицательный".data, "Отрицательный".data),
   ("negative".data, "Отрицательный".data)]

/-- `DataNormalizer._normalize_flag`. -/
def normalizeFlag (fl : PyStr) : PyStr :=
  match scanMap flagMapping (pyStrip (lowerStr fl)) with
  | some v => v
  | none => fl

/-- The truthiness-guarded unit update of `normalize_test`
(`if test.unit: test.unit = self._normalize_unit(test.unit)`). -/
def normUnitField : Option PyStr → Option PyStr
  | none => none
  | some s => if s.isEmpty then some s else some (normalizeUnit s)

/-- Likewise for `text_value`. -/
def normTextField : Option PyStr → Option PyStr
  | none => none
  | some s => if s.isEmpty then some s else some (normalizeTextValue s)

/-- Likewise for `flag`. -/
def normFlagField : Option PyStr → Option PyStr
  | none => none
  | some s => if s.isEmpty then some s else some (normalizeFlag s)

/-- `DataNormalizer.normalize_test`: name from the (never-mutated)
`original_name`, guarded unit/text/flag rewrites, then
`test._determine_category()` recomputed from the new name. -/
def normalizeTest (t : LabTest) : LabTest :=
  if t.name.isEmpty then t
  else
    { t with name := normalizeTestName t.original_name,
             unit := normUnitField t.unit,
             text_value := normTextField t.text_value,
             flag := normFlagField t.flag,
             category := some (determineCategoryM (normalizeTestName t.original_name)) }

/-! ## Specification-side definitions and concrete inputs for the claims -/

/-- Index of the first cell (from position `i`) whose resolved role is `r` —
the "first occurrence, left to right" of the claims. -/
def firstRoleHit (i : Nat) : List (Option PyStr) → ColRole → Option Nat
  | [], _ => none
  | c :: cs, r => if cellRoleOfEx c = some r then some i else firstRoleHit (i + 1) cs r

/-- Index of the last cell (from position `i`) whose resolved role
(`TableFinder` keyword tables) is `r`. -/
def lastRoleHit (i : Nat) : List (Option PyStr) → ColRole → Option Nat
  | [], _ => none
  | c :: cs, r =>
    match lastRoleHit (i + 1) cs r with
    | some j => some j
    | none => if cellRoleOfTF c = some r then some i else none

/-- The derived-counter invariant of the spec for `LabReport`. -/
def reportCountsOk (r : LabReport) : Prop :=
  r.total_tests = r.tests.length
    ∧ r.abnormal_tests = (r.tests.filter (fun t => isAbnormal t.status)).length

/-- `str(x)` for an optional string (`str(None) = "None"`). -/
def pyStrOfOptStr : Option PyStr → PyStr
  | none => "None".data
  | some s => s

/-- A row of plain string cells. -/
def rowStrs (l : List String) : List (Option PyStr) := l.map (fun s => some s.data)

/-- The grid of the spec's end-to-end scenario (claim C1): header, two data
rows, two empty rows. -/
def scenarioGrid : Grid :=
  [ rowStrs ["Показатель", "Результат", "Ед.изм", "Норма"],
    rowStrs ["Глюкоза", "5.4", "ммоль/л", "3.9-6.1"],
    rowStrs ["Лейкоциты", "12", "10^9/л", "4.0-9.0"],
    [none, none, none, none],
    [none, none, none, none] ]

/-- A non-trivial all-empty grid (`NaN` and whitespace-only cells). -/
def allEmptyGridW : Grid := [[none, some " ".data], [none, none]]

/-- A header row whose single cell holds both a test-name and a result
keyword (counterexample input for C7). -/
def bothKwRow : List (Option PyStr) := [some "показатель значение".data]

/-- A header row with a duplicated test-name keyword (counterexample input
for C7's "first occurrence wins" on `TableFinder`). -/
def dupKwRow : List (Option PyStr) :=
  [some "показатель".data, some "результат".data, some "показатель".data]

/-- A header row assigning both roles (witness input for C7). -/
def okKwRow : List (Option PyStr) := [some "показатель".data, some "результат".data]

/-- Witness `LabTest` constructor arguments: numeric 15 in range [10, 20],
no flag, no `value` (claim C3). -/
def wTest15 : LabTest :=
  { name := "тест".data, original_name := "тест".data,
    numeric_value := some 15, reference_min := some 10, reference_max := some 20 }

/-- Same with numeric 25 (above the range). -/
def wTest25 : LabTest :=
  { name := "тест".data, original_name := "тест".data,
    numeric_value := some 25, reference_min := some 10, reference_max := some 20 }

/-- Witness constructor arguments with a flag and a conflicting range
(claim C3: the flag wins). -/
def wTestFlag : LabTest :=
  { name := "тест".data, original_name := "тест".data,
    numeric_value := some 15, reference_min := some 10, reference_max := some 20,
    flag := some "Повышен".data }

/-- Witness constructor arguments: a string `value` together with a supplied
`numeric_value` (claim C9: the supplied numeric value is overwritten). -/
def wTestStrVal : LabTest :=
  { name := "тест".data, original_name := "тест".data,
    value := some (.pstr "5.4".data), numeric_value := some (27/5 : ℚ) }

/-- Witness constructor arguments with a float `value` (claim C9). -/
def wTestNumVal : LabTest :=
  { name := "тест".data, original_name := "тест".data,
    value := some (.num (27/5 : ℚ)), text_value := some "x".data }

/-! ## Helper lemmas -/

theorem postInit_flag (t : LabTest) : t.postInit.flag = t.flag := rfl

theorem postInit_refMin (t : LabTest) : t.postInit.reference_min = t.reference_min := rfl

theorem postInit_refMax (t : LabTest) : t.postInit.reference_max = t.reference_max := rfl

/-- After `__post_init__`, `numeric_value` comes from a numeric `value`, is
erased by a string `value`, and is otherwise the constructor argument. -/
theorem postInit_numeric (t : LabTest) :
    t.postInit.numeric_value =
      match t.value with
      | some (.num q) => some q
      | some (.pstr _) => none
      | none => t.numeric_value := rfl

theorem postInit_text (t : LabTest) :
    t.postInit.text_value =
      match t.value with
      | some (.num _) => none
      | some (.pstr s) => some s
      | none => t.text_value := rfl

/-- After `__post_init__`, the status is flag-derived when a flag is truthy,
else range-derived from the (post-split) numeric value and both bounds. -/
theorem postInit_status (t : LabTest) :
    t.postInit.status =
      if pyTruthyS t.flag then
        match statusFromFlag (t.flag.getD []) with
        | some s => some s
        | none => t.status
      else
        match t.postInit.numeric_value, t.reference_min, t.reference_max with
        | some v, some lo, some hi => some (statusFromReference v lo hi)
        | _, _, _ => t.status := rfl

/-- `ratNeg` is the textbook negation. -/
theorem ratNeg_eq (q : ℚ) : ratNeg q = -q := by
  rw [ratNeg, Rat.mkRat_eq_div]
  push_cast
  rw [neg_div, Rat.num_div_den]

/-- `ratMean` is the textbook arithmetic mean. -/
theorem ratMean_eq (a b : ℚ) : ratMean a b = (a + b) / 2 := by
  have ha : (a.den : ℚ) ≠ 0 := Nat.cast_ne_zero.mpr a.den_nz
  have hb : (b.den : ℚ) ≠ 0 := Nat.cast_ne_zero.mpr b.den_nz
  conv_rhs => rw [← Rat.num_div_den a, ← Rat.num_div_den b]
  rw [ratMean, Rat.mkRat_eq_div]
  push_cast
  field_simp
  ring_nf
  exact Or.inl trivial

/-- The fractional branch of `numCore` is the textbook value
`ip + fp / 10^k`. -/
theorem numCore_frac_eq (i f k : ℕ) :
    (mkRat (i * 10 ^ k + f) (10 ^ k) : ℚ) = (i : ℚ) + (f : ℚ) / 10 ^ k := by
  rw [Rat.mkRat_eq_div]
  push_cast
  field_simp

theorem reportCountsOk_addTest {r : LabReport} (t : LabTest) (h : reportCountsOk r) :
    reportCountsOk (r.addTest t) := by
  obtain ⟨h1, h2⟩ := h
  constructor
  · simp [LabReport.addTest, h1]
  · rcases hab : isAbnormal t.status <;>
      simp [LabReport.addTest, h2, List.filter_append, List.filter_cons, hab]

theorem reportCountsOk_foldl (ts : List LabTest) (r : LabReport) (h : reportCountsOk r) :
    reportCountsOk (ts.foldl LabReport.addTest r) := by
  induction ts generalizing r with
  | nil => exact h
  | cons t ts ih => exact ih _ (reportCountsOk_addTest t h)

/-! ## Claims -/

/-- Claim C1 (code bug evidence).  On the spec's scenario grid the pipeline
of `_parse_sheet` does find exactly one table (header at row 0, all four
columns resolved) and produces exactly two `LabTest` records, but both
records end with status `None` — not `normal` / `high` as the claim states:
`__post_init__` sees the string `value` `"5.4"` / `"12"`, erases the parsed
`numeric_value`, and the range-derived status is therefore never computed,
although both reference bounds were parsed correctly. -/
theorem c1_scenario_statuses :
    findHeaderRow scenarioGrid = some 0
      ∧ (identifyColumns (scenarioGrid.getD 0 [])).length = 4
      ∧ (findAndParseTable scenarioGrid).length = 2
      ∧ (parseSheet scenarioGrid).map
          (fun r => r.tests.map (fun t => (t.original_name, t.status)))
        = some [("Глюкоза".data, none), ("Лейкоциты".data, none)]
      ∧ (parseSheet scenarioGrid).map
          (fun r => r.tests.map (fun t => (t.numeric_value, t.reference_min, t.reference_max)))
        = some [(none, some (mkRat 39 10), some (mkRat 61 10)),
                (none, some (mkRat 4 1), some (mkRat 9 1))] := by
  refine ⟨?_, ?_, ?_, ?_, ?_⟩ <;> decide

/-- Claim C2 (code bug evidence).  `_parse_result_value` maps `"5,4"` to
`(5.4, None)` and `"не обнаружено"` to `(None, "Не обнаружено")` as claimed,
but on `"8-12"` the regex `[-+]?\d*\.?\d+` consumes the dash as a sign,
extracting `["8", "-12"]`; the "mean of the first two numbers" is then
`(8 + (-12)) / 2 = -2.0` — not `10.0` — and the text form is
`f"{8.0}-{-12.0}" = "8.0--12.0"` — not `"8-12"`. -/
theorem c2_result_value_parsing :
    parseResultValue (some "5,4".data) = (some (mkRat 27 5), none)
      ∧ parseResultValue (some "не обнаружено".data) = (none, some "Не обнаружено".data)
      ∧ parseResultValue (some "8-12".data) = (some (mkRat (-2) 1), some "8.0--12.0".data)
      ∧ reFindRes "8-12".data = ["8".data, "-12".data] := by
  refine ⟨?_, ?_, ?_, ?_⟩ <;> decide

/-- Claim C3.  For every `LabTest` whose constructed record has a numeric
value and both reference bounds and no (truthy) flag, the status is
`low` / `high` / `normal` by comparison with the bounds; and whenever a
truthy flag derives a status, that flag-derived status is the final one,
regardless of the range. -/
theorem c3_status_derivation :
    (∀ (t : LabTest) (v lo hi : ℚ),
        pyTruthyS t.postInit.flag = false →
        t.postInit.numeric_value = some v →
        t.postInit.reference_min = some lo →
        t.postInit.reference_max = some hi →
        t.postInit.status = some (statusFromReference v lo hi))
      ∧ (∀ (t : LabTest) (s : TestStatus),
          pyTruthyS t.flag = true →
          statusFromFlag (t.flag.getD []) = some s →
          t.postInit.status = some s) := by
  constructor
  · intro t v lo hi hf hn hlo hhi
    rw [postInit_flag] at hf
    rw [postInit_refMin] at hlo
    rw [postInit_refMax] at hhi
    rw [postInit_status, hf, hn, hlo, hhi]
    simp
  · intro t s hf hs
    rw [postInit_status, hf, hs]
    simp

/-- Witness for C3: numeric 15 in [10, 20] without flag gives `normal`,
25 gives `high`, and a `Повышен` flag wins over an in-range value. -/
theorem c3_status_derivation_witness :
    pyTruthyS wTest15.postInit.flag = false
      ∧ wTest15.postInit.numeric_value = some 15
      ∧ wTest15.postInit.status = some .NORMAL
      ∧ wTest25.postInit.status = some .HIGH
      ∧ pyTruthyS wTestFlag.flag = true
      ∧ wTestFlag.postInit.status = some .HIGH := by
  refine ⟨rfl, rfl, ?_, ?_, rfl, ?_⟩
  · exact c3_status_derivation.1 wTest15 15 10 20 rfl rfl rfl rfl
  · exact c3_status_derivation.1 wTest25 25 10 20 rfl rfl rfl rfl
  · exact c3_status_derivation.2 wTestFlag .HIGH rfl (by decide)

/-- Claim C4.  After `__post_init__` and after any sequence of `add_test`
calls, `total_tests` equals `len(tests)` and `abnormal_tests` equals the
number of tests with status in `{high, low, abnormal, suspicious}`. -/
theorem c4_report_counts (r0 : LabReport) (ts : List LabTest) :
    reportCountsOk (LabReport.postInit r0)
      ∧ reportCountsOk (ts.foldl LabReport.addTest (LabReport.postInit r0)) := by
  have h0 : reportCountsOk (LabReport.postInit r0) := ⟨rfl, rfl⟩
  exact ⟨h0, reportCountsOk_foldl ts _ h0⟩

/-- Claim C9.  `__post_init__`'s value split: a string `value` forces
`text_value = value` and `numeric_value = None` (overwriting any supplied
numeric value); a numeric `value` forces `numeric_value = float(value)` and
`text_value = None`; hence at most one of the two is populated whenever
`value` is present. -/
theorem c9_value_split :
    (∀ (t : LabTest) (s : PyStr), t.value = some (.pstr s) →
        t.postInit.text_value = some s ∧ t.postInit.numeric_value = none)
      ∧ (∀ (t : LabTest) (q : ℚ), t.value = some (.num q) →
          t.postInit.numeric_value = some q ∧ t.postInit.text_value = none)
      ∧ (∀ t : LabTest, t.value ≠ none →
          t.postInit.numeric_value = none ∨ t.postInit.text_value = none) := by
  refine ⟨?_, ?_, ?_⟩
  · intro t s hv
    rw [postInit_text, postInit_numeric, hv]
    exact ⟨rfl, rfl⟩
  · intro t q hv
    rw [postInit_text, postInit_numeric, hv]
    exact ⟨rfl, rfl⟩
  · intro t hv
    rw [postInit_text, postInit_numeric]
    match h : t.value with
    | none => exact absurd h hv
    | some (.num q) => simp
    | some (.pstr s) => simp

/-- Witness for C9: `value = "5.4"` with a supplied `numeric_value = 5.4`
still ends with `numeric_value = None`; `value = 5.4` (float) ends with
`numeric_value = 5.4` and no text value. -/
theorem c9_value_split_witness :
    wTestStrVal.value = some (.pstr "5.4".data)
      ∧ wTestStrVal.postInit.text_value = some "5.4".data
      ∧ wTestStrVal.postInit.numeric_value = none
      ∧ wTestNumVal.postInit.numeric_value = some (27/5 : ℚ)
      ∧ wTestNumVal.postInit.text_value = none := by
  have h1 := c9_value_split.1 wTestStrVal "5.4".data rfl
  have h2 := c9_value_split.2.1 wTestNumVal (27/5 : ℚ) rfl
  exact ⟨rfl, h1.1, h1.2, h2.1, h2.2⟩

/-- Claim C10.  For a falsy reference input (`None` or the empty string),
`_parse_reference_range` returns no bounds and `str(input)` as the
reference text — for a missing cell that is the literal string `"None"`. -/
theorem c10_reference_falsy (r : Option PyStr) (h : pyTruthyS r = false) :
    parseReferenceRange r = (none, none, pyStrOfOptStr r) := by
  cases r with
  | none => rfl
  | some s =>
    have hs : s = [] := by simpa [pyTruthyS] using h
    subst hs
    rfl

/-- Witness for C10 at the missing cell. -/
theorem c10_reference_falsy_witness :
    pyTruthyS (none : Option PyStr) = false
      ∧ parseReferenceRange none = (none, none, "None".data) :=
  ⟨rfl, c10_reference_falsy none rfl⟩

theorem mem_ite_singleton {p : Prop} [Decidable p] {r i : Nat} :
    (r ∈ if p then [i] else []) ↔ p ∧ r = i := by
  split <;> simp_all

/-- Claim C8.  A row index is a candidate header row (a member of
`sorted(set(starts))` in `_find_potential_table_starts`) iff it lies within
the first `min(100, len)` rows and its concatenated row text either matches
one of the fixed header-shape patterns or has keyword hits in at least 2 of
the 3 required-column categories. -/
theorem c8_candidate_header_rows (g : Grid) (r : Nat) :
    r ∈ candidateStarts g ↔
      r < min 100 g.length
        ∧ (matchesStartPattern (rowToText (g.getD r [])) = true
            ∨ rowContainsRequired (rowToText (g.getD r [])) = true) := by
  unfold candidateStarts potentialStartsRaw
  rw [List.mem_dedup]
  simp only [List.mem_flatMap, List.mem_range, List.mem_append, mem_ite_singleton]
  constructor
  · rintro ⟨i, hi, ⟨hp, rfl⟩ | ⟨hp, rfl⟩⟩
    · exact ⟨hi, Or.inl hp⟩
    · exact ⟨hi, Or.inr hp⟩
  · rintro ⟨hr, hp | hp⟩
    · exact ⟨r, hr, Or.inl ⟨hp, rfl⟩⟩
    · exact ⟨r, hr, Or.inr ⟨hp, rfl⟩⟩

theorem pfx_subset {n t : PyStr} (h : pfx n t = true) : ∀ c ∈ n, c ∈ t := by
  induction n generalizing t with
  | nil => intro c hc; cases hc
  | cons a as ih =>
    cases t with
    | nil => cases h
    | cons b bs =>
      simp only [pfx, Bool.and_eq_true, decide_eq_true_eq] at h
      intro c hc
      rcases List.mem_cons.mp hc with rfl | hc'
      · exact h.1 ▸ List.mem_cons_self _ _
      · exact List.mem_cons_of_mem _ (ih h.2 c hc')

theorem subS_subset {n t : PyStr} (h : subS n t = true) : ∀ c ∈ n, c ∈ t := by
  induction t with
  | nil =>
    simp only [subS, List.isEmpty_eq_true] at h
    subst h; intro c hc; cases hc
  | cons b bs ih =>
    simp only [subS, Bool.or_eq_true] at h
    rcases h with h | h
    · exact pfx_subset h
    · exact fun c hc => List.mem_cons_of_mem _ (ih h c hc)

theorem subS_ws_false {kw t : PyStr} (hws : ∀ c ∈ t, isPyWs c = true)
    (hkw : kw.any (fun c => !isPyWs c) = true) : subS kw t = false := by
  cases h : subS kw t with
  | false => rfl
  | true =>
    obtain ⟨c, hc, hcw⟩ := List.any_eq_true.mp hkw
    have := hws c (subS_subset h c hc)
    simp [this] at hcw

theorem dropAfterFirst_none {kw t : PyStr} (hws : ∀ c ∈ t, isPyWs c = true)
    (hkw : kw.any (fun c => !isPyWs c) = true) : dropAfterFirst kw t = none := by
  induction t with
  | nil => rfl
  | cons b bs ih =>
    have hp : pfx kw (b :: bs) = false := by
      cases h : pfx kw (b :: bs) with
      | false => rfl
      | true =>
        obtain ⟨c, hc, hcw⟩ := List.any_eq_true.mp hkw
        have := hws c (pfx_subset h c hc)
        simp [this] at hcw
    simp only [dropAfterFirst, hp, Bool.false_eq_true, if_false]
    exact ih (fun c hc => hws c (List.mem_cons_of_mem _ hc))

theorem takeWhile_mem {t : PyStr} {q : Char → Bool} {c : Char}
    (h : c ∈ t.takeWhile q) : c ∈ t := by
  induction t with
  | nil => cases h
  | cons b bs ih =>
    by_cases hb : q b
    · rw [List.takeWhile_cons_of_pos hb] at h
      rcases List.mem_cons.mp h with rfl | h'
      · exact List.mem_cons_self _ _
      · exact List.mem_cons_of_mem _ (ih h')
    · rw [List.takeWhile_cons_of_neg hb] at h
      cases h

theorem containsInOrder_ws_false {t k : PyStr} {ks : List PyStr}
    (hws : ∀ c ∈ t, isPyWs c = true) (hk : k.any (fun c => !isPyWs c) = true) :
    containsInOrder t (k :: ks) = false := by
  simp only [containsInOrder, dropAfterFirst_none hws hk]

theorem matchesStartPattern_ws {t : PyStr} (hws : ∀ c ∈ t, isPyWs c = true) :
    matchesStartPattern t = false := by
  have htw : ∀ c ∈ List.takeWhile (fun c => c != '\n') t, isPyWs c = true :=
    fun c hc => hws c (takeWhile_mem hc)
  have h1 : dropAfterFirst "показатель".data (List.takeWhile (fun c => c != '\n') t) = none :=
    dropAfterFirst_none htw (by decide)
  have h2 : dropAfterFirst "название".data (List.takeWhile (fun c => c != '\n') t) = none :=
    dropAfterFirst_none htw (by decide)
  have h3 : dropAfterFirst "test".data (List.takeWhile (fun c => c != '\n') t) = none :=
    dropAfterFirst_none htw (by decide)
  have h4 : dropAfterFirst "parameter".data (List.takeWhile (fun c => c != '\n') t) = none :=
    dropAfterFirst_none htw (by decide)
  simp [matchesStartPattern, tableStartSeqs, strs, containsInOrder, h1, h2, h3, h4]

theorem rowContainsRequired_ws {t : PyStr} (hws : ∀ c ∈ t, isPyWs c = true) :
    rowContainsRequired t = false := by
  have hall : requiredColumnsTF.all (fun l => l.all (fun k => k.any (fun c => !isPyWs c)))
      = true := by decide
  have hfilter : requiredColumnsTF.filter (fun kws => kws.any (fun k => subS k t)) = [] := by
    rw [List.filter_eq_nil_iff]
    intro kws hk
    have hsub : ∀ k ∈ kws, subS k t = false := fun k hkk =>
      subS_ws_false hws (List.all_eq_true.mp (List.all_eq_true.mp hall kws hk) k hkk)
    rw [Bool.not_eq_true, List.any_eq_false]
    intro k hkk
    simp [hsub k hkk]
  simp [rowContainsRequired, hfilter]

theorem tblGet_mem {tbl : List (Char × Char)} {c d : Char} (h : tblGet tbl c = some d) :
    (c, d) ∈ tbl := by
  induction tbl with
  | nil => cases h
  | cons p rest ih =>
    obtain ⟨a, b⟩ := p
    simp only [tblGet] at h
    split at h
    · cases h
      simp_all
    · exact List.mem_cons_of_mem _ (ih h)

theorem ws_pyLower (c : Char) : isPyWs (pyLower c) = isPyWs c := by
  rw [pyLower]
  cases h : tblGet lowerPairs c with
  | none => rfl
  | some d =>
    have hm := tblGet_mem h
    have hp : lowerPairs.all (fun p => !isPyWs p.1 && !isPyWs p.2) = true := by decide
    have := List.all_eq_true.mp hp _ hm
    simp only [Bool.and_eq_true, Bool.not_eq_true'] at this
    simp [Option.getD, this.1, this.2]

theorem stripR_eq_nil_iff {l : PyStr} : stripR l = [] ↔ ∀ c ∈ l, isPyWs c = true := by
  induction l with
  | nil => simp [stripR]
  | cons c cs ih =>
    simp only [stripR]
    constructor
    · intro h
      split at h
      · rename_i hcond
        simp only [Bool.and_eq_true, List.isEmpty_eq_true] at hcond
        intro x hx
        rcases List.mem_cons.mp hx with rfl | hx'
        · exact hcond.2
        · exact (ih.mp hcond.1) x hx'
      · cases h
    · intro h
      have h1 : stripR cs = [] := ih.mpr (fun x hx => h x (List.mem_cons_of_mem _ hx))
      have h2 : isPyWs c = true := h c (List.mem_cons_self _ _)
      simp [h1, h2]

theorem allWs_of_stripL {l : PyStr} (h : ∀ c ∈ stripL l, isPyWs c = true) :
    ∀ c ∈ l, isPyWs c = true := by
  induction l with
  | nil => intro c hc; cases hc
  | cons b bs ih =>
    by_cases hb : isPyWs b
    · rw [stripL, List.dropWhile_cons_of_pos hb] at h
      intro c hc
      rcases List.mem_cons.mp hc with rfl | hc'
      · exact hb
      · exact ih h c hc'
    · rw [stripL, List.dropWhile_cons_of_neg hb] at h
      intro c hc
      exact h c hc

theorem allWs_of_pyStrip_nil {s : PyStr} (h : pyStrip s = []) : ∀ c ∈ s, isPyWs c = true :=
  allWs_of_stripL (stripR_eq_nil_iff.mp h)

theorem allWs_joinSp {parts : List PyStr}
    (h : ∀ p ∈ parts, ∀ c ∈ p, isPyWs c = true) :
    ∀ c ∈ joinSp parts, isPyWs c = true := by
  induction parts with
  | nil => intro c hc; cases hc
  | cons p ps ih =>
    cases ps with
    | nil =>
      intro c hc
      exact h p (List.mem_cons_self _ _) c hc
    | cons q ps' =>
      intro c hc
      have hj : joinSp (p :: q :: ps') = p ++ ' ' :: joinSp (q :: ps') := rfl
      rw [hj] at hc
      rcases List.mem_append.mp hc with hc' | hc'
      · exact h p (List.mem_cons_self _ _) c hc'
      · rcases List.mem_cons.mp hc' with rfl | hc''
        · rfl
        · exact ih (fun x hx => h x (List.mem_cons_of_mem _ hx)) c hc''

theorem rowToText_ws {row : List (Option PyStr)} (h : isEmptyRowPd row = true) :
    ∀ c ∈ rowToText row, isPyWs c = true := by
  rw [rowToText]
  apply allWs_joinSp
  intro p hp c hc
  obtain ⟨p0, hp0, rfl⟩ := List.mem_map.mp hp
  obtain ⟨cell, hcell, hid⟩ := List.mem_filterMap.mp hp0
  cases cell with
  | none => cases hid
  | some s =>
    have hs' : s = p0 := by simpa using hid
    subst hs'
    have hs : (pyStrip s).isEmpty = true := by
      have := List.all_eq_true.mp h _ hcell
      simpa using this
    have hws : ∀ x ∈ s, isPyWs x = true :=
      allWs_of_pyStrip_nil (List.isEmpty_eq_true.mp hs)
    obtain ⟨c0, hc0, rfl⟩ := List.mem_map.mp hc
    rw [ws_pyLower]
    exact hws c0 hc0

theorem getD_mem {g : Grid} {i : Nat} (h : i < g.length) : g.getD i [] ∈ g := by
  induction g generalizing i with
  | nil => cases h
  | cons row rows ih =>
    cases i with
    | zero => exact List.mem_cons_self _ _
    | succ j =>
      exact List.mem_cons_of_mem _ (ih (Nat.lt_of_succ_lt_succ h))

theorem flatMap_nil {α β : Type} {l : List α} {f : α → List β}
    (h : ∀ a ∈ l, f a = []) : l.flatMap f = [] := by
  induction l with
  | nil => rfl
  | cons a as ih =>
    rw [List.flatMap_cons, h a (List.mem_cons_self _ _), List.nil_append]
    exact ih (fun x hx => h x (List.mem_cons_of_mem _ hx))

theorem altScanGo_nil {g : Grid} {rows : Grid} {i : Nat}
    (h : ∀ row ∈ rows, isEmptyRowPd row = true) :
    altScanGo g none 0 i rows = [] := by
  induction rows generalizing i with
  | nil => rfl
  | cons row rest ih =>
    have hr : isEmptyRowPd row = true := h row (List.mem_cons_self _ _)
    simp only [altScanGo, hr, Bool.not_true, Bool.false_eq_true, if_false, List.nil_append]
    exact ih (fun x hx => h x (List.mem_cons_of_mem _ hx))

/-- Claim C6.  For every grid with zero rows, or whose rows are all empty
(every cell `NaN` or whitespace-only), `TableFinder.find_tables` returns the
empty list (the embedding is a total function, so no exception is possible). -/
theorem c6_empty_no_tables (g : Grid)
    (h : g.length = 0 ∨ ∀ row ∈ g, isEmptyRowPd row = true) :
    findTables g = [] := by
  rcases h with h0 | hrows
  · have hg : g = [] := List.length_eq_zero.mp h0
    subst hg
    rfl
  · by_cases hde : dfEmpty g = true
    · simp [findTables, hde]
    · have hraw : potentialStartsRaw g = [] := by
        apply flatMap_nil
        intro i hi
        have hi' : i < g.length :=
          Nat.lt_of_lt_of_le (List.mem_range.mp hi) (Nat.min_le_right _ _)
        have hws := rowToText_ws (hrows _ (getD_mem hi'))
        rw [matchesStartPattern_ws hws, rowContainsRequired_ws hws]
        rfl
      have hcand : candidateStarts g = [] := by rw [candidateStarts, hraw]; rfl
      have halt : findTablesAlternative g = [] := altScanGo_nil hrows
      simp [findTables, hde, hcand, halt, filterClose, filterCloseGo, filterOverlapping,
        sortTables, List.insertionSort]

/-- Witness for C6 at a 2×2 grid of `NaN` and whitespace cells. -/
theorem c6_empty_no_tables_witness :
    ((allEmptyGridW.length = 0 ∨ ∀ row ∈ allEmptyGridW, isEmptyRowPd row = true)
      ∧ findTables allEmptyGridW = []) :=
  ⟨Or.inr (by decide), c6_empty_no_tables allEmptyGridW (Or.inr (by decide))⟩

theorem lookup_append_some {l1 l2 : List (ColRole × Nat)} {k : ColRole} {v : Nat}
    (h : l1.lookup k = some v) : (l1 ++ l2).lookup k = some v := by
  induction l1 with
  | nil => cases h
  | cons p rest ih =>
    obtain ⟨a, b⟩ := p
    rw [List.cons_append]
    simp only [List.lookup] at h ⊢
    cases hk : (k == a) with
    | true => rw [hk] at h; simpa [hk] using h
    | false => rw [hk] at h; simp only [hk]; exact ih h

theorem lookup_append_none {l1 l2 : List (ColRole × Nat)} {k : ColRole}
    (h : l1.lookup k = none) : (l1 ++ l2).lookup k = l2.lookup k := by
  induction l1 with
  | nil => rfl
  | cons p rest ih =>
    obtain ⟨a, b⟩ := p
    rw [List.cons_append]
    simp only [List.lookup] at h ⊢
    cases hk : (k == a) with
    | true => rw [hk] at h; cases h
    | false => rw [hk] at h; simp only [hk]; exact ih h

theorem lookup_singleton_self {k : ColRole} {v : Nat} :
    ([(k, v)] : List (ColRole × Nat)).lookup k = some v := by
  simp [List.lookup]

theorem firstRoleHit_ge {cs : List (Option PyStr)} {i j : Nat} {r : ColRole}
    (h : firstRoleHit i cs r = some j) : i ≤ j := by
  induction cs generalizing i with
  | nil => cases h
  | cons c rest ih =>
    simp only [firstRoleHit] at h
    split at h
    · cases h; exact Nat.le_refl _
    · exact Nat.le_of_succ_le (ih h)

theorem firstRoleHit_inj {cs : List (Option PyStr)} {i j : Nat} {r1 r2 : ColRole}
    (h1 : firstRoleHit i cs r1 = some j) (h2 : firstRoleHit i cs r2 = some j) :
    r1 = r2 := by
  induction cs generalizing i with
  | nil => cases h1
  | cons c rest ih =>
    simp only [firstRoleHit] at h1 h2
    split at h1 <;> split at h2
    · rename_i e1 e2
      exact Option.some.inj (e1.symm.trans e2)
    · cases h1
      have := firstRoleHit_ge h2
      omega
    · cases h2
      have := firstRoleHit_ge h1
      omega
    · exact ih h1 h2

theorem icGo_lookup_some {acc : List (ColRole × Nat)} {i : Nat}
    {cs : List (Option PyStr)} {r : ColRole} {j : Nat} (h : acc.lookup r = some j) :
    (identifyColumnsGo acc i cs).lookup r = some j := by
  induction cs generalizing acc i with
  | nil => exact h
  | cons c rest ih =>
    simp only [identifyColumnsGo]
    cases hc : cellRoleOfEx c with
    | none => exact ih h
    | some r' =>
      by_cases hs : (acc.lookup r').isSome
      · simp only [hs, if_true]
        exact ih h
      · simp only [hs, Bool.false_eq_true, if_false]
        exact ih (lookup_append_some h)

theorem lookup_singleton_ne {k k' : ColRole} {v : Nat} (h : k ≠ k') :
    ([(k', v)] : List (ColRole × Nat)).lookup k = none := by
  simp only [List.lookup]
  rw [beq_eq_false_iff_ne.mpr h]

theorem icGo_lookup_none {acc : List (ColRole × Nat)} {i : Nat}
    {cs : List (Option PyStr)} {r : ColRole} (h : acc.lookup r = none) :
    (identifyColumnsGo acc i cs).lookup r = firstRoleHit i cs r := by
  induction cs generalizing acc i with
  | nil => exact h
  | cons c rest ih =>
    simp only [identifyColumnsGo, firstRoleHit]
    cases hc : cellRoleOfEx c with
    | none =>
      rw [if_neg (by simp)]
      exact ih h
    | some r' =>
      dsimp only
      by_cases hrr : r' = r
      · subst hrr
        rw [if_pos rfl, h]
        simp only [Option.isSome_none, Bool.false_eq_true, if_false]
        exact icGo_lookup_some ((lookup_append_none h).trans lookup_singleton_self)
      · rw [if_neg (fun hcon => hrr (Option.some.inj hcon))]
        by_cases hs : (List.lookup r' acc).isSome = true
        · rw [if_pos hs]
          exact ih h
        · rw [if_neg hs]
          exact ih ((lookup_append_none h).trans (lookup_singleton_ne (Ne.symm hrr)))

theorem identifyColumns_lookup (row : List (Option PyStr)) (r : ColRole) :
    (identifyColumns row).lookup r = firstRoleHit 0 row r :=
  icGo_lookup_none rfl

theorem lookup_mapReplace_self {acc : List (ColRole × Nat)} {r : ColRole} {i : Nat}
    (h : (acc.lookup r).isSome = true) :
    ((acc.map (fun p => if p.1 = r then (r, i) else p)).lookup r) = some i := by
  induction acc with
  | nil => simp [List.lookup] at h
  | cons p rest ih =>
    obtain ⟨a, b⟩ := p
    by_cases ha : a = r
    · subst ha
      simp only [List.map_cons, if_pos rfl]
      simp [List.lookup]
    · simp only [List.map_cons]
      rw [if_neg (by simpa using ha)]
      simp only [List.lookup] at h ⊢
      rw [beq_eq_false_iff_ne.mpr (fun he => ha he.symm)] at h ⊢
      exact ih h

theorem lookup_mapReplace_other {acc : List (ColRole × Nat)} {r r' : ColRole} {i : Nat}
    (h : r' ≠ r) :
    ((acc.map (fun p => if p.1 = r then (r, i) else p)).lookup r') = acc.lookup r' := by
  induction acc with
  | nil => rfl
  | cons p rest ih =>
    obtain ⟨a, b⟩ := p
    by_cases ha : a = r
    · subst ha
      simp only [List.map_cons, if_pos rfl]
      simp only [List.lookup]
      rw [beq_eq_false_iff_ne.mpr h]
      exact ih
    · simp only [List.map_cons]
      rw [if_neg (by simpa using ha)]
      simp only [List.lookup]
      cases hk : (r' == a) with
      | true => rfl
      | false => exact ih

theorem insertOver_lookup_self {acc : List (ColRole × Nat)} {r : ColRole} {i : Nat} :
    (insertOver acc r i).lookup r = some i := by
  rw [insertOver]
  by_cases hs : (acc.lookup r).isSome = true
  · rw [if_pos hs]
    exact lookup_mapReplace_self hs
  · rw [if_neg hs]
    have hn : acc.lookup r = none := by
      cases h' : acc.lookup r
      · rfl
      · simp [h'] at hs
    exact (lookup_append_none hn).trans lookup_singleton_self

theorem insertOver_lookup_other {acc : List (ColRole × Nat)} {r r' : ColRole} {i : Nat}
    (h : r' ≠ r) : (insertOver acc r i).lookup r' = acc.lookup r' := by
  rw [insertOver]
  by_cases hs : (acc.lookup r).isSome = true
  · rw [if_pos hs]
    exact lookup_mapReplace_other h
  · rw [if_neg hs]
    cases h2 : acc.lookup r' with
    | some v => exact lookup_append_some h2
    | none => exact (lookup_append_none h2).trans (lookup_singleton_ne h)

theorem lastRoleHit_ge {cs : List (Option PyStr)} {i j : Nat} {r : ColRole}
    (h : lastRoleHit i cs r = some j) : i ≤ j := by
  induction cs generalizing i with
  | nil => cases h
  | cons c rest ih =>
    cases hl : lastRoleHit (i + 1) rest r with
    | some j' =>
      simp only [lastRoleHit, hl] at h
      cases h
      exact Nat.le_of_succ_le (ih hl)
    | none =>
      simp only [lastRoleHit, hl] at h
      split at h
      · cases h
        exact Nat.le_refl _
      · cases h

theorem lastRoleHit_inj {cs : List (Option PyStr)} {i j : Nat} {r1 r2 : ColRole}
    (h1 : lastRoleHit i cs r1 = some j) (h2 : lastRoleHit i cs r2 = some j) :
    r1 = r2 := by
  induction cs generalizing i with
  | nil => cases h1
  | cons c rest ih =>
    cases hl1 : lastRoleHit (i + 1) rest r1 with
    | some j1 =>
      simp only [lastRoleHit, hl1] at h1
      cases h1
      cases hl2 : lastRoleHit (i + 1) rest r2 with
      | some j2 =>
        simp only [lastRoleHit, hl2] at h2
        cases h2
        exact ih hl1 hl2
      | none =>
        simp only [lastRoleHit, hl2] at h2
        split at h2
        · cases h2
          have := lastRoleHit_ge hl1
          omega
        · cases h2
    | none =>
      simp only [lastRoleHit, hl1] at h1
      cases hl2 : lastRoleHit (i + 1) rest r2 with
      | some j2 =>
        simp only [lastRoleHit, hl2] at h2
        cases h2
        split at h1
        · cases h1
          have := lastRoleHit_ge hl2
          omega
        · cases h1
      | none =>
        simp only [lastRoleHit, hl2] at h2
        split at h1 <;> split at h2
        · rename_i e1 e2
          cases h1
          cases h2
          exact Option.some.inj (e1.symm.trans e2)
        · cases h2
        · cases h1
        · cases h1

theorem itcGo_lookup {acc : List (ColRole × Nat)} {i : Nat}
    {cs : List (Option PyStr)} {r : ColRole} :
    (identifyTableColumnsGo acc i cs).lookup r =
      match lastRoleHit i cs r with
      | some j => some j
      | none => acc.lookup r := by
  induction cs generalizing acc i with
  | nil => rfl
  | cons c rest ih =>
    cases hc : cellRoleOfTF c with
    | none =>
      simp only [identifyTableColumnsGo, lastRoleHit, hc]
      rw [ih]
      cases hl : lastRoleHit (i + 1) rest r <;> simp
    | some r' =>
      simp only [identifyTableColumnsGo, lastRoleHit, hc]
      rw [ih]
      cases hl : lastRoleHit (i + 1) rest r with
      | some j' => simp
      | none =>
        by_cases hrr : r' = r
        · subst hrr
          simp only [if_pos rfl]
          exact insertOver_lookup_self
        · rw [if_neg (fun hcon => hrr (Option.some.inj hcon))]
          simp only
          exact insertOver_lookup_other (Ne.symm hrr)

theorem identifyTableColumns_lookup (row : List (Option PyStr)) (r : ColRole) :
    (identifyTableColumns row).lookup r = lastRoleHit 0 row r := by
  rw [identifyTableColumns, itcGo_lookup]
  cases lastRoleHit 0 row r <;> rfl

theorem lookup_none_iff_not_mem_keys {l : List (ColRole × Nat)} {k : ColRole} :
    l.lookup k = none ↔ k ∉ l.map Prod.fst := by
  induction l with
  | nil => simp [List.lookup]
  | cons p rest ih =>
    obtain ⟨a, b⟩ := p
    simp only [List.lookup, List.map_cons, List.mem_cons]
    cases hk : (k == a) with
    | true =>
      have : k = a := by simpa using hk
      simp [this]
    | false =>
      have : ¬k = a := by simpa using hk
      simp [this, ih]

theorem icGo_keys_nodup {acc : List (ColRole × Nat)} {i : Nat}
    {cs : List (Option PyStr)} (h : (acc.map Prod.fst).Nodup) :
    ((identifyColumnsGo acc i cs).map Prod.fst).Nodup := by
  induction cs generalizing acc i with
  | nil => exact h
  | cons c rest ih =>
    simp only [identifyColumnsGo]
    cases hc : cellRoleOfEx c with
    | none => exact ih h
    | some r' =>
      by_cases hs : (acc.lookup r').isSome = true
      · simp only [hs, if_true]
        exact ih h
      · simp only [hs, Bool.false_eq_true, if_false]
        apply ih
        rw [List.map_append]
        refine List.Nodup.append h (by simp) ?_
        intro x hx hx'
        simp only [List.map_cons, List.map_nil, List.mem_singleton] at hx'
        subst hx'
        have hn : acc.lookup x = none := by
          cases h' : acc.lookup x
          · rfl
          · simp [h'] at hs
        exact (lookup_none_iff_not_mem_keys.mp hn) hx

theorem keys_mapReplace {acc : List (ColRole × Nat)} {r : ColRole} {i : Nat} :
    ((acc.map (fun p => if p.1 = r then (r, i) else p)).map Prod.fst) = acc.map Prod.fst := by
  rw [List.map_map]
  apply List.map_congr_left
  intro p _
  by_cases hp : p.1 = r
  · simp [hp]
  · simp [hp]

theorem itcGo_keys_nodup {acc : List (ColRole × Nat)} {i : Nat}
    {cs : List (Option PyStr)} (h : (acc.map Prod.fst).Nodup) :
    ((identifyTableColumnsGo acc i cs).map Prod.fst).Nodup := by
  induction cs generalizing acc i with
  | nil => exact h
  | cons c rest ih =>
    simp only [identifyTableColumnsGo]
    cases hc : cellRoleOfTF c with
    | none => exact ih h
    | some r' =>
      apply ih
      dsimp only
      rw [insertOver]
      by_cases hs : (acc.lookup r').isSome = true
      · rw [if_pos hs, keys_mapReplace]
        exact h
      · rw [if_neg hs, List.map_append]
        refine List.Nodup.append h (by simp) ?_
        intro x hx hx'
        simp only [List.map_cons, List.map_nil, List.mem_singleton] at hx'
        subst hx'
        have hn : acc.lookup x = none := by
          cases h' : acc.lookup x
          · rfl
          · simp [h'] at hs
        exact (lookup_none_iff_not_mem_keys.mp hn) hx

/-- Claim C7 counterexample.  The claim as stated is false on the code:
(a) the row whose single cell is `"показатель значение"` contains both a
test-name keyword and a result keyword, yet neither resolver assigns the
`result` role (the cell's first matching role is `test_name` and each cell
gets at most one role); (b) in `TableFinder._identify_table_columns` the
first occurrence does not win: with a duplicated test-name keyword in
columns 0 and 2, column 0 resolves to the `test_name` role but the final
assignment is column 2 (the later column overwrites). -/
theorem c7_counterexample :
    (subS "показатель".data "показатель значение".data = true
      ∧ subS "значение".data "показатель значение".data = true
      ∧ (identifyColumns bothKwRow).lookup .result = none
      ∧ (identifyTableColumns bothKwRow).lookup .result = none)
      ∧ (cellRoleOfTF (dupKwRow.getD 0 none) = some .test_name
          ∧ (identifyTableColumns dupKwRow).lookup .test_name = some 2) := by
  refine ⟨⟨?_, ?_, ?_, ?_⟩, ?_, ?_⟩ <;> decide

/-- Claim C7 as amended.  Each role is assigned to at most one column (the
result's keys have no duplicates) and each column receives at most one role
(the lookup is injective on assigned indices).  In
`ExcelLabParser._identify_columns` the assignment of a role is the first
cell (left to right) whose first matching role it is, while in
`TableFinder._identify_table_columns` it is the last such cell.  For every
header row containing a cell whose first matching role is `test_name` and a
cell whose first matching role is `result`, both roles are assigned, to
distinct columns — in each resolver with its own keyword tables and
first/last rule. -/
theorem c7_roles_amended :
    (∀ (row : List (Option PyStr)) (r : ColRole),
        (identifyColumns row).lookup r = firstRoleHit 0 row r)
      ∧ (∀ (row : List (Option PyStr)) (r : ColRole),
          (identifyTableColumns row).lookup r = lastRoleHit 0 row r)
      ∧ (∀ row : List (Option PyStr),
          ((identifyColumns row).map Prod.fst).Nodup
            ∧ ((identifyTableColumns row).map Prod.fst).Nodup)
      ∧ (∀ (row : List (Option PyStr)) (r1 r2 : ColRole) (j : Nat),
          (identifyColumns row).lookup r1 = some j →
          (identifyColumns row).lookup r2 = some j → r1 = r2)
      ∧ (∀ (row : List (Option PyStr)) (r1 r2 : ColRole) (j : Nat),
          (identifyTableColumns row).lookup r1 = some j →
          (identifyTableColumns row).lookup r2 = some j → r1 = r2)
      ∧ (∀ (row : List (Option PyStr)) (j k : Nat),
          firstRoleHit 0 row .test_name = some j →
          firstRoleHit 0 row .result = some k →
          (identifyColumns row).lookup .test_name = some j
            ∧ (identifyColumns row).lookup .result = some k ∧ j ≠ k)
      ∧ (∀ (row : List (Option PyStr)) (j k : Nat),
          lastRoleHit 0 row .test_name = some j →
          lastRoleHit 0 row .result = some k →
          (identifyTableColumns row).lookup .test_name = some j
            ∧ (identifyTableColumns row).lookup .result = some k ∧ j ≠ k) := by
  refine ⟨identifyColumns_lookup, identifyTableColumns_lookup,
    fun row => ⟨icGo_keys_nodup (by simp), itcGo_keys_nodup (by simp)⟩, ?_, ?_, ?_, ?_⟩
  · intro row r1 r2 j h1 h2
    rw [identifyColumns_lookup] at h1 h2
    exact firstRoleHit_inj h1 h2
  · intro row r1 r2 j h1 h2
    rw [identifyTableColumns_lookup] at h1 h2
    exact lastRoleHit_inj h1 h2
  · intro row j k h1 h2
    refine ⟨(identifyColumns_lookup row _).trans h1, (identifyColumns_lookup row _).trans h2, ?_⟩
    intro hjk
    subst hjk
    exact absurd (firstRoleHit_inj h1 h2) (by decide)
  · intro row j k h1 h2
    refine ⟨(identifyTableColumns_lookup row _).trans h1,
      (identifyTableColumns_lookup row _).trans h2, ?_⟩
    intro hjk
    subst hjk
    exact absurd (lastRoleHit_inj h1 h2) (by decide)

/-- Witness for C7 (amended) on the two-cell row `показатель / результат`. -/
theorem c7_roles_amended_witness :
    (identifyColumns okKwRow).lookup .test_name = some 0
      ∧ (identifyColumns okKwRow).lookup .result = some 1
      ∧ (identifyTableColumns okKwRow).lookup .test_name = some 0
      ∧ (identifyTableColumns okKwRow).lookup .result = some 1
      ∧ (0 : Nat) ≠ 1 := by
  have h1 := c7_roles_amended.2.2.2.2.2.1 okKwRow 0 1 (by decide) (by decide)
  have h2 := c7_roles_amended.2.2.2.2.2.2 okKwRow 0 1 (by decide) (by decide)
  exact ⟨h1.1, h1.2.1, h2.1, h2.2.1, h1.2.2⟩

theorem scanMap_mem_snd {m : List (PyStr × PyStr)} {t v : PyStr}
    (h : scanMap m t = some v) : v ∈ m.map Prod.snd := by
  induction m with
  | nil => cases h
  | cons p rest ih =>
    obtain ⟨k, w⟩ := p
    simp only [scanMap] at h
    split at h
    · cases h
      exact List.mem_cons_self _ _
    · exact List.mem_cons_of_mem _ (ih h)

theorem stripR_idem (l : PyStr) : stripR (stripR l) = stripR l := by
  induction l with
  | nil => rfl
  | cons c cs ih =>
    cases hr : ((stripR cs).isEmpty && isPyWs c) with
    | true => simp [stripR, hr]
    | false =>
      simp only [stripR, hr, Bool.false_eq_true, if_false]
      simp only [stripR, ih, hr, Bool.false_eq_true, if_false]

theorem stripL_head_not_ws {l : PyStr} {c : Char} {cs : PyStr} (h : stripL l = c :: cs) :
    isPyWs c = false := by
  induction l with
  | nil => cases h
  | cons b bs ih =>
    rw [stripL] at h
    by_cases hb : isPyWs b
    · rw [List.dropWhile_cons_of_pos hb] at h
      exact ih h
    · rw [List.dropWhile_cons_of_neg hb] at h
      cases h
      simpa using hb

theorem pyStrip_idem (l : PyStr) : pyStrip (pyStrip l) = pyStrip l := by
  rw [pyStrip, pyStrip]
  have hL : stripL (stripR (stripL l)) = stripR (stripL l) := by
    cases hx : stripL l with
    | nil => rfl
    | cons c cs =>
      have hc : isPyWs c = false := stripL_head_not_ws hx
      simp only [stripR, hc, Bool.and_false, Bool.false_eq_true, if_false]
      rw [stripL, List.dropWhile_cons_of_neg (by simp [hc])]
  rw [hL, stripR_idem]

theorem map_ws_stripL {f : Char → Char} (hf : ∀ c, isPyWs (f c) = isPyWs c) (l : PyStr) :
    stripL (l.map f) = (stripL l).map f := by
  induction l with
  | nil => rfl
  | cons c cs ih =>
    rw [List.map_cons, stripL, stripL]
    by_cases hc : isPyWs c
    · rw [List.dropWhile_cons_of_pos (show isPyWs (f c) = true by rw [hf c]; exact hc),
        List.dropWhile_cons_of_pos hc]
      exact ih
    · rw [List.dropWhile_cons_of_neg (show ¬isPyWs (f c) = true by rw [hf c]; exact hc),
        List.dropWhile_cons_of_neg hc, List.map_cons]

theorem map_ws_stripR {f : Char → Char} (hf : ∀ c, isPyWs (f c) = isPyWs c) (l : PyStr) :
    stripR (l.map f) = (stripR l).map f := by
  induction l with
  | nil => rfl
  | cons c cs ih =>
    simp only [List.map_cons, stripR, ih, hf c]
    have hie : (List.map f (stripR cs)).isEmpty = (stripR cs).isEmpty := by
      cases stripR cs <;> rfl
    rw [hie]
    cases hr : ((stripR cs).isEmpty && isPyWs c) <;> simp [hr]

theorem lowerStr_pyStrip (u : PyStr) : lowerStr (pyStrip u) = pyStrip (lowerStr u) := by
  rw [pyStrip, pyStrip]
  unfold lowerStr
  rw [map_ws_stripL ws_pyLower, map_ws_stripR ws_pyLower]

theorem cleanUnit_pyStrip (u : PyStr) : cleanUnit (pyStrip u) = cleanUnit u := by
  rw [cleanUnit, cleanUnit, lowerStr_pyStrip, pyStrip_idem]

theorem normalizeUnit_fixed : ∀ v ∈ unitMapping.map Prod.snd, normalizeUnit v = v := by
  decide

theorem normalizeUnit_idem (u : PyStr) :
    normalizeUnit (normalizeUnit u) = normalizeUnit u := by
  by_cases hu : u.isEmpty = true
  · have h : normalizeUnit u = u := by rw [normalizeUnit, if_pos hu]
    rw [h]
    exact h
  · have h : normalizeUnit u =
        match scanMap unitMapping (cleanUnit u) with
        | some v => v
        | none => pyStrip u := by rw [normalizeUnit, if_neg hu]
    cases hs : scanMap unitMapping (cleanUnit u) with
    | some v =>
      have hv : normalizeUnit u = v := by rw [h, hs]
      rw [hv]
      exact normalizeUnit_fixed v (scanMap_mem_snd hs)
    | none =>
      have hv : normalizeUnit u = pyStrip u := by rw [h, hs]
      rw [hv]
      by_cases hp : (pyStrip u).isEmpty = true
      · rw [normalizeUnit, if_pos hp]
      · rw [normalizeUnit, if_neg hp, cleanUnit_pyStrip, hs, pyStrip_idem]

theorem normalizeTextValue_fixed :
    ∀ v ∈ textValueMapping.map Prod.snd, normalizeTextValue v = v := by
  decide

theorem normalizeTextValue_idem (t : PyStr) :
    normalizeTextValue (normalizeTextValue t) = normalizeTextValue t := by
  by_cases ht : t.isEmpty = true
  · have h : normalizeTextValue t = t := by rw [normalizeTextValue, if_pos ht]
    rw [h]
    exact h
  · have h : normalizeTextValue t =
        match scanMap textValueMapping (pyStrip (lowerStr t)) with
        | some v => v
        | none => t := by rw [normalizeTextValue, if_neg ht]
    cases hs : scanMap textValueMapping (pyStrip (lowerStr t)) with
    | some v =>
      have hv : normalizeTextValue t = v := by rw [h, hs]
      rw [hv]
      exact normalizeTextValue_fixed v (scanMap_mem_snd hs)
    | none =>
      have hv : normalizeTextValue t = t := by rw [h, hs]
      rw [hv]
      exact hv

theorem normalizeFlag_fixed : ∀ v ∈ flagMapping.map Prod.snd, normalizeFlag v = v := by
  decide

theorem normalizeFlag_idem (f : PyStr) :
    normalizeFlag (normalizeFlag f) = normalizeFlag f := by
  have h : normalizeFlag f =
      match scanMap flagMapping (pyStrip (lowerStr f)) with
      | some v => v
      | none => f := rfl
  cases hs : scanMap flagMapping (pyStrip (lowerStr f)) with
  | some v =>
    have hv : normalizeFlag f = v := by rw [h, hs]
    rw [hv]
    exact normalizeFlag_fixed v (scanMap_mem_snd hs)
  | none =>
    have hv : normalizeFlag f = f := by rw [h, hs]
    rw [hv]
    exact hv

theorem normUnitField_idem (o : Option PyStr) :
    normUnitField (normUnitField o) = normUnitField o := by
  cases o with
  | none => rfl
  | some s =>
    by_cases hs : s.isEmpty = true
    · simp [normUnitField, hs]
    · by_cases h2 : (normalizeUnit s).isEmpty = true
      · simp [normUnitField, hs, h2]
      · simp [normUnitField, hs, h2, normalizeUnit_idem]

theorem normTextField_idem (o : Option PyStr) :
    normTextField (normTextField o) = normTextField o := by
  cases o with
  | none => rfl
  | some s =>
    by_cases hs : s.isEmpty = true
    · simp [normTextField, hs]
    · by_cases h2 : (normalizeTextValue s).isEmpty = true
      · simp [normTextField, hs, h2]
      · simp [normTextField, hs, h2, normalizeTextValue_idem]

theorem normFlagField_idem (o : Option PyStr) :
    normFlagField (normFlagField o) = normFlagField o := by
  cases o with
  | none => rfl
  | some s =>
    by_cases hs : s.isEmpty = true
    · simp [normFlagField, hs]
    · by_cases h2 : (normalizeFlag s).isEmpty = true
      · simp [normFlagField, hs, h2]
      · simp [normFlagField, hs, h2, normalizeFlag_idem]

/-- Claim C5.  `DataNormalizer.normalize_test` is idempotent: applying it
twice yields the same `name`, `unit`, `text_value`, `flag` and `category` as
applying it once, for every `LabTest`.  (The name is recomputed from the
never-mutated `original_name`; each canonical unit/text/flag value is a
fixed point of its own rewrite; the pass-through branches return their
input, or — for units — its whitespace-strip, which cleans to the same
probe.) -/
theorem c5_normalize_idempotent (t : LabTest) :
    (normalizeTest (normalizeTest t)).name = (normalizeTest t).name
      ∧ (normalizeTest (normalizeTest t)).unit = (normalizeTest t).unit
      ∧ (normalizeTest (normalizeTest t)).text_value = (normalizeTest t).text_value
      ∧ (normalizeTest (normalizeTest t)).flag = (normalizeTest t).flag
      ∧ (normalizeTest (normalizeTest t)).category = (normalizeTest t).category := by
  by_cases h1 : t.name.isEmpty = true
  · have h : normalizeTest t = t := by rw [normalizeTest, if_pos h1]
    rw [h, h]
    exact ⟨rfl, rfl, rfl, rfl, rfl⟩
  · have h : normalizeTest t =
        { t with name := normalizeTestName t.original_name,
                 unit := normUnitField t.unit,
                 text_value := normTextField t.text_value,
                 flag := normFlagField t.flag,
                 category := some (determineCategoryM (normalizeTestName t.original_name)) } := by
      rw [normalizeTest, if_neg h1]
    by_cases h2 : (normalizeTest t).name.isEmpty = true
    · have h3 : normalizeTest (normalizeTest t) = normalizeTest t := by
        conv_lhs => rw [normalizeTest, if_pos h2]
      rw [h3]
      exact ⟨rfl, rfl, rfl, rfl, rfl⟩
    · rw [h] at h2
      rw [h]
      rw [normalizeTest, if_neg h2]
      exact ⟨rfl, normUnitField_idem _, normTextField_idem _, normFlagField_idem _, rfl⟩
